import Mathlib

/-!
# procfs: the SCTP statistics parser (`sctp.go`)

A shallow embedding of `parseSCTP` from `sctp.go` and of the library
functions it calls, followed by theorems about it.

Conventions of the embedding.

* Go strings are Lean strings (valid UTF-8 only); a byte loop over an ASCII
  string is a loop over its characters, and a character above 127 stands for
  bytes above 127.
* `int64` values are integers of `Int`; `uint64` values are naturals with an
  explicit `% 2 ^ 64` where the Go arithmetic can wrap.
* `strings.Fields`, `unicode.IsSpace` and `strconv.ParseInt` belong to the Go
  standard library; they are embedded from the library's sources.
* The `bufio.Scanner` over the reader is its observable behaviour: the list
  of lines `scanner.Text()` yields while `scanner.Scan()` is true, and the
  value of `scanner.Err()` afterwards.
* Go returns the pair `(SCTP, error)`. A `nil` of either component is `none`.
* `sctp.go:97` reads `strconv.ParseInt(v, 64)`. The identifier `v` is
  declared nowhere in the function or the file: the string parsed on every
  line is `v`, a name of the enclosing package scope that the loop never
  assigns, and never `parts[1]`. It is the parameter `v` of `parseSCTP`
  below. The call gives `64`, the bit size of the `int64` fields, and no
  base: the base is `parseBase`.
* No statement takes `v` to be the value token of a line: the theorems hold
  for every `v`, or under a condition on the outcome of the parse of `v`
  (`sctp.go:97-98`) alone.
* `scanLines` gives the lines of a text as the scanner with `bufio.ScanLines`
  yields them, and the scanner's error: a line that fills the buffer of
  `bufio.MaxScanTokenSize` bytes ends the scan with `bufio.ErrTooLong`.
* `NewSCTP` and `FS.NewSCTP` (`sctp.go:61-79`) open the file and hand it to
  `parseSCTP`; they are outside the embedding. Their doc comments
  (`sctp.go:60`, `70`) still describe `NewBuddyInfo` and the buddyinfo
  statistics.
-/

namespace Procfs

/-! ## Data model (`sctp.go:25-58`) -/

/-- The record `SCTP` of `sctp.go:25-58`; `SCTP{}` is the record of defaults. -/
structure SCTP where
  CurrEstab : Int := 0
  ActiveEstabs : Int := 0
  PassiveEstabs : Int := 0
  Aborteds : Int := 0
  Shutdowns : Int := 0
  OutOfBlues : Int := 0
  ChecksumErrors : Int := 0
  OutCtrlChunks : Int := 0
  OutOrderChunks : Int := 0
  OutUnorderChunks : Int := 0
  InCtrlChunks : Int := 0
  InOrderChunks : Int := 0
  InUnorderChunks : Int := 0
  FragUsrMsgs : Int := 0
  ReasmUsrMsgs : Int := 0
  OutSCTPPacks : Int := 0
  InSCTPPacks : Int := 0
  T1InitExpireds : Int := 0
  T1CookieExpireds : Int := 0
  T2ShutdownExpireds : Int := 0
  T3RtxExpireds : Int := 0
  T4RtoExpireds : Int := 0
  T5ShutdownGuardExpireds : Int := 0
  DelaySackExpireds : Int := 0
  AutocloseExpireds : Int := 0
  T3Retransmits : Int := 0
  PmtudRetransmits : Int := 0
  FastRetransmits : Int := 0
  InPktSoftirq : Int := 0
  InPktBacklog : Int := 0
  InPktDiscards : Int := 0
  InDataChunkDiscards : Int := 0
deriving DecidableEq

/-- The two causes a `*strconv.NumError` of `ParseInt` carries. -/
inductive NumErr where
  | ErrSyntax
  | ErrRange
deriving DecidableEq

/-- Go error values met by `parseSCTP`: the result of `fmt.Errorf(msg)`, the
`*strconv.NumError` of `strconv` (function, offending text, cause), and any
other error, such as one a reader reports. -/
inductive Error where
  | errorf (msg : String)
  | numError (Func : String) (Num : String) (Err : NumErr)
  | other (msg : String)
deriving DecidableEq

deriving instance DecidableEq for Except

/-! ## Library functions called by `parseSCTP` -/

/-- Go `unicode.IsSpace`: the Latin-1 spaces and the code points of the
Unicode property White_Space. -/
def IsSpace (r : Char) : Bool :=
  let n := r.toNat
  (decide (9 ≤ n) && decide (n ≤ 13)) || n == 0x20 || n == 0x85 || n == 0xA0
    || n == 0x1680 || (decide (0x2000 ≤ n) && decide (n ≤ 0x200A))
    || n == 0x2028 || n == 0x2029 || n == 0x202F || n == 0x205F || n == 0x3000

/-- The scan of `strings.Fields`: `cur` holds the characters of the field
being read, last character first. -/
def fieldsAux : List Char → List Char → List String
  | [], cur => if cur.isEmpty then [] else [String.mk cur.reverse]
  | c :: cs, cur =>
    if IsSpace c then
      if cur.isEmpty then fieldsAux cs [] else String.mk cur.reverse :: fieldsAux cs []
    else fieldsAux cs (c :: cur)

/-- Go `strings.Fields`: the maximal runs of non-space characters of `s`. -/
def Fields (s : String) : List String :=
  fieldsAux s.data []

/-- Modelled from the spec: the base of the conversion at `sctp.go:97`, whose
call `strconv.ParseInt(v, 64)` passes the string and the bit size only. The
spec (section 4.1, step 3b) has the value parsed as a base-10 signed 64-bit
integer. -/
def parseBase : Nat := 10

/-- Largest `uint64`. -/
def maxUint64 : Nat := 2 ^ 64 - 1

/-- Go `lower` of `strconv`: `c | ('x' - 'X')` on a byte. -/
def lower (c : Nat) : Nat := c ||| 0x20

/-- The digit value `ParseUint` gives a byte: decimal digits, then letters
from 10 on; nothing for any other byte. -/
def digitVal (c : Char) : Option Nat :=
  let b := c.toNat
  if 48 ≤ b ∧ b ≤ 57 then some (b - 48)
  else if b < 128 ∧ 97 ≤ lower b ∧ lower b ≤ 122 then some (lower b - 97 + 10)
  else none

/-- The digit loop of `strconv.ParseUint(s, parseBase, 64)`: the value so far
is `n`; the result is the value and the cause of failure, if any. -/
def parseUintLoop : List Char → Nat → Nat × Option NumErr
  | [], n => (n, none)
  | c :: cs, n =>
    match digitVal c with
    | none => (0, some NumErr.ErrSyntax)
    | some d =>
      if d ≥ parseBase then (0, some NumErr.ErrSyntax)
      else if n ≥ maxUint64 / parseBase + 1 then (maxUint64, some NumErr.ErrRange)
      else
        let n10 := (n * parseBase) % 2 ^ 64
        let n1 := (n10 + d) % 2 ^ 64
        if n1 < n10 ∨ n1 > maxUint64 then (maxUint64, some NumErr.ErrRange)
        else parseUintLoop cs n1

/-- Go `strconv.ParseUint(s, parseBase, 64)` on the characters of `s`. -/
def ParseUint (s : List Char) : Nat × Option NumErr :=
  if s.isEmpty then (0, some NumErr.ErrSyntax) else parseUintLoop s 0

/-- Conversion of an integer to `int64`, wrapping. -/
def int64 (i : Int) : Int := (i + 2 ^ 63) % 2 ^ 64 - 2 ^ 63

/-- Go `strconv.ParseInt(s, parseBase, 64)`: an optional sign, then
`ParseUint`, then the range check against `1 << 63`. -/
def ParseInt (s : String) : Except Error Int :=
  match s.data with
  | [] => Except.error (Error.numError "ParseInt" s NumErr.ErrSyntax)
  | c :: cs =>
    let neg := c == '-'
    let rest := if c == '+' ∨ c == '-' then cs else c :: cs
    match ParseUint rest with
    | (_, some NumErr.ErrSyntax) => Except.error (Error.numError "ParseInt" s NumErr.ErrSyntax)
    | (un, _) =>
      let cutoff := 2 ^ 63
      if ¬ neg ∧ un ≥ cutoff then Except.error (Error.numError "ParseInt" s NumErr.ErrRange)
      else if neg ∧ un > cutoff then Except.error (Error.numError "ParseInt" s NumErr.ErrRange)
      else
        let n := int64 un
        Except.ok (if neg then int64 (-n) else n)

/-! ## `parseSCTP` (`sctp.go:81-153`) -/

/-- The `switch name` of `sctp.go:102-149`: the record after the assignment
of the matching case, or `none` in the `default` case. -/
def assign (sctp : SCTP) (name : String) (value : Int) : Option SCTP :=
  match name with
  | "SctpInCtrlChunks" => some { sctp with InCtrlChunks := value }
  | "SctpInOrderChunks" => some { sctp with InOrderChunks := value }
  | "SctpInUnorderChunks" => some { sctp with InUnorderChunks := value }
  | "SctpFragUsrMsgs" => some { sctp with FragUsrMsgs := value }
  | "SctpReasmUsrMsgs" => some { sctp with ReasmUsrMsgs := value }
  | "SctpOutSCTPPacks" => some { sctp with OutSCTPPacks := value }
  | "SctpInSCTPPacks" => some { sctp with InSCTPPacks := value }
  | "SctpT1InitExpireds" => some { sctp with T1InitExpireds := value }
  | "SctpT1CookieExpireds" => some { sctp with T1CookieExpireds := value }
  | "SctpT2ShutdownExpireds" => some { sctp with T2ShutdownExpireds := value }
  | "SctpT3RtxExpireds" => some { sctp with T3RtxExpireds := value }
  | "SctpT4RtoExpireds" => some { sctp with T4RtoExpireds := value }
  | "SctpT5ShutdownGuardExpireds" => some { sctp with T5ShutdownGuardExpireds := value }
  | "SctpDelaySackExpireds" => some { sctp with DelaySackExpireds := value }
  | "SctpAutocloseExpireds" => some { sctp with AutocloseExpireds := value }
  | "SctpT3Retransmits" => some { sctp with T3Retransmits := value }
  | "SctpPmtudRetransmits" => some { sctp with PmtudRetransmits := value }
  | "SctpFastRetransmits" => some { sctp with FastRetransmits := value }
  | "SctpInPktSoftirq" => some { sctp with InPktSoftirq := value }
  | "SctpInPktBacklog" => some { sctp with InPktBacklog := value }
  | "SctpInPktDiscards" => some { sctp with InPktDiscards := value }
  | "SctpInDataChunkDiscards" => some { sctp with InDataChunkDiscards := value }
  | _ => none

/-- The error of `sctp.go:93`. -/
def errFields : Error := Error.errorf "invalid number of fields when parsing SCTP"

/-- The error of `sctp.go:148`. -/
def errMetric : Error := Error.errorf "invalid sctp metric"

/-- The loop `for scanner.Scan()` of `sctp.go:87-150` over the lines the
scanner yields, from the record `sctp`: the record after the last line, or
the error of the first `return nil, ...` reached. -/
def scanLoop (v : String) : SCTP → List String → Except Error SCTP
  | sctp, [] => Except.ok sctp
  | sctp, line :: rest =>
    let parts := Fields line
    if parts.length ≠ 2 then Except.error errFields
    else
      let name := parts.headD ""
      match ParseInt v with
      | Except.error err => Except.error err
      | Except.ok value =>
        match assign sctp name value with
        | none => Except.error errMetric
        | some sctp' => scanLoop v sctp' rest

/-- The function `parseSCTP` of `sctp.go:81-153`. `lines` and `scanErr` are
what the scanner yields and what `scanner.Err()` then returns; `v` is the
string that `sctp.go:97` parses. The result is the pair Go returns. -/
def parseSCTP (v : String) (lines : List String) (scanErr : Option Error) :
    Option SCTP × Option Error :=
  match scanLoop v {} lines with
  | Except.error err => (none, some err)
  | Except.ok sctp => (some sctp, scanErr)

/-- The names with a case in the `switch` of `sctp.go:102-149`. -/
def recognizedNames : List String :=
  ["SctpInCtrlChunks", "SctpInOrderChunks", "SctpInUnorderChunks", "SctpFragUsrMsgs",
   "SctpReasmUsrMsgs", "SctpOutSCTPPacks", "SctpInSCTPPacks", "SctpT1InitExpireds",
   "SctpT1CookieExpireds", "SctpT2ShutdownExpireds", "SctpT3RtxExpireds",
   "SctpT4RtoExpireds", "SctpT5ShutdownGuardExpireds", "SctpDelaySackExpireds",
   "SctpAutocloseExpireds", "SctpT3Retransmits", "SctpPmtudRetransmits",
   "SctpFastRetransmits", "SctpInPktSoftirq", "SctpInPktBacklog", "SctpInPktDiscards",
   "SctpInDataChunkDiscards"]

/-- A line the loop passes when the value parses: exactly two fields, the
first one a name with a case in the switch. -/
def recognizedLine (line : String) : Prop :=
  (Fields line).length = 2 ∧ (Fields line).headD "" ∈ recognizedNames

instance (line : String) : Decidable (recognizedLine line) := by
  unfold recognizedLine
  infer_instance

/-- The records `a` and `b` agree on the ten fields of `SCTP` that no case
of the switch assigns (`sctp.go:26-35`). -/
def sameUnassigned (a b : SCTP) : Prop :=
  a.CurrEstab = b.CurrEstab ∧ a.ActiveEstabs = b.ActiveEstabs ∧
  a.PassiveEstabs = b.PassiveEstabs ∧ a.Aborteds = b.Aborteds ∧
  a.Shutdowns = b.Shutdowns ∧ a.OutOfBlues = b.OutOfBlues ∧
  a.ChecksumErrors = b.ChecksumErrors ∧ a.OutCtrlChunks = b.OutCtrlChunks ∧
  a.OutOrderChunks = b.OutOrderChunks ∧ a.OutUnorderChunks = b.OutUnorderChunks

/-- The 32 fields of a record in the order of their declaration
(`sctp.go:26-57`), the first at position 0. -/
def SCTP.toList (s : SCTP) : List Int :=
  [s.CurrEstab, s.ActiveEstabs, s.PassiveEstabs, s.Aborteds,
   s.Shutdowns, s.OutOfBlues, s.ChecksumErrors, s.OutCtrlChunks,
   s.OutOrderChunks, s.OutUnorderChunks, s.InCtrlChunks, s.InOrderChunks,
   s.InUnorderChunks, s.FragUsrMsgs, s.ReasmUsrMsgs, s.OutSCTPPacks,
   s.InSCTPPacks, s.T1InitExpireds, s.T1CookieExpireds, s.T2ShutdownExpireds,
   s.T3RtxExpireds, s.T4RtoExpireds, s.T5ShutdownGuardExpireds, s.DelaySackExpireds,
   s.AutocloseExpireds, s.T3Retransmits, s.PmtudRetransmits, s.FastRetransmits,
   s.InPktSoftirq, s.InPktBacklog, s.InPktDiscards, s.InDataChunkDiscards]

/-- The position (in the declaration order of `SCTP.toList`) of the field
that the case of `name` in the switch of `sctp.go:102-149` assigns; `none`
for a name that has no case. -/
def fieldIndex (name : String) : Option Nat :=
  match name with
  | "SctpInCtrlChunks" => some 10
  | "SctpInOrderChunks" => some 11
  | "SctpInUnorderChunks" => some 12
  | "SctpFragUsrMsgs" => some 13
  | "SctpReasmUsrMsgs" => some 14
  | "SctpOutSCTPPacks" => some 15
  | "SctpInSCTPPacks" => some 16
  | "SctpT1InitExpireds" => some 17
  | "SctpT1CookieExpireds" => some 18
  | "SctpT2ShutdownExpireds" => some 19
  | "SctpT3RtxExpireds" => some 20
  | "SctpT4RtoExpireds" => some 21
  | "SctpT5ShutdownGuardExpireds" => some 22
  | "SctpDelaySackExpireds" => some 23
  | "SctpAutocloseExpireds" => some 24
  | "SctpT3Retransmits" => some 25
  | "SctpPmtudRetransmits" => some 26
  | "SctpFastRetransmits" => some 27
  | "SctpInPktSoftirq" => some 28
  | "SctpInPktBacklog" => some 29
  | "SctpInPktDiscards" => some 30
  | "SctpInDataChunkDiscards" => some 31
  | _ => none

/-- Go `dropCR` of `bufio`: the line without one trailing carriage return. -/
def dropCR (data : List Char) : List Char :=
  if data.getLast? = some (Char.ofNat 13) then data.dropLast else data

/-- Go `bufio.MaxScanTokenSize`, the largest size the buffer of the scanner of
`sctp.go:84` grows to. -/
def maxScanTokenSize : Nat := 64 * 1024

/-- Go `bufio.ErrTooLong`. -/
def errTooLong : Error := Error.other "bufio.Scanner: token too long"

/-- The number of bytes of the UTF-8 encoding of a list of characters. -/
def byteLen (cs : List Char) : Nat := (cs.map Char.utf8Size).sum

/-- The tokens a `bufio.Scanner` with the split function `bufio.ScanLines`
yields on a text, and the value of `scanner.Err()` afterwards, for a reader
that delivers the text and reports the end of input on a read of its own (as
the file of `sctp.go:72` does). `cur` holds the characters of the line being
read, last character first. Each newline ends a line; what follows the last
newline is a final line when it is not empty. A line of `maxScanTokenSize`
bytes or more (its newline not counted) fills the buffer before it ends: the
scanner stops with `ErrTooLong`, having yielded the lines before it only. -/
def scanLinesAux : List Char → List Char → List String × Option Error
  | [], cur =>
    if cur.isEmpty then ([], none)
    else if byteLen cur ≥ maxScanTokenSize then ([], some errTooLong)
    else ([String.mk (dropCR cur.reverse)], none)
  | c :: cs, cur =>
    if c = Char.ofNat 10 then
      if byteLen cur ≥ maxScanTokenSize then ([], some errTooLong)
      else (String.mk (dropCR cur.reverse) :: (scanLinesAux cs []).1, (scanLinesAux cs []).2)
    else scanLinesAux cs (c :: cur)

/-- The lines of a text as the scanner of `sctp.go:84` yields them, and the
error `scanner.Err()` then returns. -/
def scanLines (text : String) : List String × Option Error :=
  scanLinesAux text.data []

/-- The function `parseSCTP` on a reader that delivers `text` and then ends
without a read error. -/
def parseSCTPText (v : String) (text : String) : Option SCTP × Option Error :=
  parseSCTP v (scanLines text).1 (scanLines text).2

/-- A decimal digit, `0` to `9`. -/
def isDecimalDigit (c : Char) : Bool :=
  decide (48 ≤ c.toNat ∧ c.toNat ≤ 57)

/-- The number a list of decimal digits denotes after the digits read so far
gave `n`; `decimalFrom 0 ds` is the number `ds` denotes. -/
def decimalFrom (n : Nat) (ds : List Char) : Nat :=
  ds.foldl (fun a c => a * 10 + (c.toNat - 48)) n

/-- The string `s` is a signed decimal numeral of the `int64` value `x`: an
optional sign (`-`, or `+` when `allowPlus` holds), then one or more decimal
digits, the number denoted lying between `-2 ^ 63` and `2 ^ 63 - 1`. -/
def IsSignedDecimal (allowPlus : Bool) (s : String) (x : Int) : Prop :=
  ∃ sign ds : List Char, s.data = sign ++ ds ∧
    (sign = [] ∨ sign = ['-'] ∨ (allowPlus = true ∧ sign = ['+'])) ∧
    ds ≠ [] ∧ (∀ c ∈ ds, isDecimalDigit c = true) ∧
    x = (if sign = ['-'] then -(decimalFrom 0 ds : Int) else (decimalFrom 0 ds : Int)) ∧
    -(2 : Int) ^ 63 ≤ x ∧ x ≤ 2 ^ 63 - 1

/-- The character of the decimal digit `d`. -/
def digitChar (d : Nat) : Char := Char.ofNat (48 + d)

/-- The decimal digits of a natural number, most significant first, without
leading zeros; `0` for zero. -/
def formatNat (n : Nat) : List Char :=
  if n = 0 then ['0'] else (Nat.digits 10 n).reverse.map digitChar

/-- The decimal rendering of an integer, as Go `strconv.FormatInt(n, 10)`
writes it: `-` for a negative number, then the digits of its magnitude. -/
def FormatInt (n : Int) : String :=
  if n < 0 then String.mk ('-' :: formatNat n.natAbs) else String.mk (formatNat n.toNat)

/-! ## Lemmas on the switch and the loop -/

theorem assign_eq_none_iff (sctp : SCTP) (name : String) (value : Int) :
    assign sctp name value = none ↔ name ∉ recognizedNames := by
  unfold assign
  split <;> simp_all [recognizedNames]

theorem assign_isSome_of_mem (sctp : SCTP) (name : String) (value : Int)
    (h : name ∈ recognizedNames) : ∃ sctp', assign sctp name value = some sctp' := by
  cases hA : assign sctp name value with
  | none => exact absurd h ((assign_eq_none_iff sctp name value).1 hA)
  | some s => exact ⟨s, rfl⟩

theorem scanLoop_nil (v : String) (sctp : SCTP) : scanLoop v sctp [] = Except.ok sctp := rfl

theorem scanLoop_cons_malformed (v : String) (sctp : SCTP) (line : String) (rest : List String)
    (h : (Fields line).length ≠ 2) : scanLoop v sctp (line :: rest) = Except.error errFields := by
  simp [scanLoop, h]

theorem scanLoop_cons_badValue (v : String) (sctp : SCTP) (line : String) (rest : List String)
    (err : Error) (h : (Fields line).length = 2) (hv : ParseInt v = Except.error err) :
    scanLoop v sctp (line :: rest) = Except.error err := by
  simp [scanLoop, h, hv]

theorem scanLoop_cons_unknown (v : String) (sctp : SCTP) (line : String) (rest : List String)
    (x : Int) (h : (Fields line).length = 2) (hv : ParseInt v = Except.ok x)
    (hn : (Fields line).headD "" ∉ recognizedNames) :
    scanLoop v sctp (line :: rest) = Except.error errMetric := by
  have hA := (assign_eq_none_iff sctp ((Fields line).headD "") x).2 hn
  rw [scanLoop]
  simp only [h, ne_eq, not_true_eq_false, if_false, hv, hA]

theorem scanLoop_cons_assign (v : String) (sctp sctp' : SCTP) (line : String)
    (rest : List String) (x : Int) (h : (Fields line).length = 2)
    (hv : ParseInt v = Except.ok x) (hA : assign sctp ((Fields line).headD "") x = some sctp') :
    scanLoop v sctp (line :: rest) = scanLoop v sctp' rest := by
  rw [scanLoop]
  simp only [h, ne_eq, not_true_eq_false, if_false, hv, hA]

theorem scanLoop_append_recognized (v : String) (x : Int) (hv : ParseInt v = Except.ok x)
    (pre rest : List String) (hpre : ∀ l ∈ pre, recognizedLine l) (sctp : SCTP) :
    ∃ sctp', scanLoop v sctp (pre ++ rest) = scanLoop v sctp' rest := by
  induction pre generalizing sctp with
  | nil => exact ⟨sctp, rfl⟩
  | cons l ls ih =>
    have hl := hpre l (List.mem_cons_self l ls)
    obtain ⟨s1, hs1⟩ := assign_isSome_of_mem sctp ((Fields l).headD "") x hl.2
    obtain ⟨s2, hs2⟩ := ih (fun m hm => hpre m (List.mem_cons_of_mem l hm)) s1
    refine ⟨s2, ?_⟩
    rw [List.cons_append, scanLoop_cons_assign v sctp s1 l (ls ++ rest) x hl.1 hv hs1]
    exact hs2

theorem assign_sameUnassigned (sctp sctp' : SCTP) (name : String) (value : Int)
    (h : assign sctp name value = some sctp') : sameUnassigned sctp' sctp := by
  unfold assign at h
  split at h <;> simp at h <;> subst h <;> simp [sameUnassigned]

theorem scanLoop_sameUnassigned (v : String) (lines : List String) (sctp sctp' : SCTP)
    (h : scanLoop v sctp lines = Except.ok sctp') : sameUnassigned sctp' sctp := by
  induction lines generalizing sctp with
  | nil =>
    rw [scanLoop_nil] at h
    cases h
    simp [sameUnassigned]
  | cons l ls ih =>
    rw [scanLoop] at h
    simp only at h
    split at h
    · cases h
    · split at h
      · cases h
      · split at h
        · cases h
        · rename_i s1 hs1
          have h1 := assign_sameUnassigned _ _ _ _ hs1
          have h2 := ih s1 h
          unfold sameUnassigned at *
          omega

theorem parseSCTP_of_loop_ok (v : String) (lines : List String) (scanErr : Option Error)
    (sctp : SCTP) (h : scanLoop v {} lines = Except.ok sctp) :
    parseSCTP v lines scanErr = (some sctp, scanErr) := by
  simp [parseSCTP, h]

theorem parseSCTP_of_loop_error (v : String) (lines : List String) (scanErr : Option Error)
    (err : Error) (h : scanLoop v {} lines = Except.error err) :
    parseSCTP v lines scanErr = (none, some err) := by
  simp [parseSCTP, h]

/-! ## The library functions on sample inputs -/

theorem Fields_sample : Fields " SctpInSCTPPacks \t42 " = ["SctpInSCTPPacks", "42"] := by
  decide

theorem ParseInt_samples :
    ParseInt "42" = Except.ok 42 ∧ ParseInt "+5" = Except.ok 5 ∧
      ParseInt "-9223372036854775808" = Except.ok (-9223372036854775808) ∧
      ParseInt "9223372036854775808"
        = Except.error (Error.numError "ParseInt" "9223372036854775808" NumErr.ErrRange) ∧
      ParseInt "abc" = Except.error (Error.numError "ParseInt" "abc" NumErr.ErrSyntax) ∧
      ParseInt "" = Except.error (Error.numError "ParseInt" "" NumErr.ErrSyntax) := by
  decide

/-! ## The claims -/

/-- C1 (the code departs from the claim). On the two lines
`SctpInSCTPPacks 42` and `SctpOutSCTPPacks 7` the loop parses the string `v`
of `sctp.go:97` on both lines and never the second field of the line: for
every `v` the call either fails with the error of `ParseInt v` or gives both
fields the one integer `v` denotes. So for no `v` is the result the record
with `InSCTPPacks = 42` and `OutSCTPPacks = 7` that the claim states. -/
theorem parseSCTP_scenario_same_value (v : String) :
    ((∃ err, ParseInt v = Except.error err ∧
        parseSCTP v ["SctpInSCTPPacks 42", "SctpOutSCTPPacks 7"] none = (none, some err)) ∨
      (∃ x, ParseInt v = Except.ok x ∧
        parseSCTP v ["SctpInSCTPPacks 42", "SctpOutSCTPPacks 7"] none
          = (some { InSCTPPacks := x, OutSCTPPacks := x }, none))) ∧
    parseSCTP v ["SctpInSCTPPacks 42", "SctpOutSCTPPacks 7"] none
      ≠ (some { InSCTPPacks := 42, OutSCTPPacks := 7 }, none) := by
  have h1 : Fields "SctpInSCTPPacks 42" = ["SctpInSCTPPacks", "42"] := by decide
  have h2 : Fields "SctpOutSCTPPacks 7" = ["SctpOutSCTPPacks", "7"] := by decide
  cases hv : ParseInt v with
  | error err =>
    have hr : parseSCTP v ["SctpInSCTPPacks 42", "SctpOutSCTPPacks 7"] none = (none, some err) := by
      simp [parseSCTP, scanLoop, h1, hv]
    refine ⟨Or.inl ⟨err, rfl, hr⟩, ?_⟩
    rw [hr]
    simp
  | ok x =>
    have hr : parseSCTP v ["SctpInSCTPPacks 42", "SctpOutSCTPPacks 7"] none
        = (some { InSCTPPacks := x, OutSCTPPacks := x }, none) := by
      simp [parseSCTP, scanLoop, h1, h2, hv, assign]
    refine ⟨Or.inr ⟨x, rfl, hr⟩, ?_⟩
    rw [hr]
    intro h
    simp only [Prod.mk.injEq, Option.some.injEq, SCTP.mk.injEq, and_true, true_and] at h
    omega

/-- C2, as stated, fails: on the lines `X` and `BadKey 5` (with `5` the
string parsed) the first line has one field, so the call ends with the
malformed-line error and not with the unrecognized-key error. -/
theorem parseSCTP_unknown_after_malformed :
    parseSCTP "5" ["X", "BadKey 5"] none = (none, some errFields) ∧ errFields ≠ errMetric := by
  decide

/-- C2, amended. If every line before `line` has exactly two fields and a
recognized name, `line` has exactly two fields with a first field that is not
recognized, and the string the code parses as the value is a valid integer,
then `parseSCTP` fails with the unrecognized-key error and returns no record,
whatever follows and whatever the scanner reports. -/
theorem parseSCTP_unrecognized_key (v : String) (x : Int) (pre post : List String)
    (line : String) (scanErr : Option Error)
    (hv : ParseInt v = Except.ok x)
    (hpre : ∀ l ∈ pre, recognizedLine l)
    (hlen : (Fields line).length = 2)
    (hname : (Fields line).headD "" ∉ recognizedNames) :
    parseSCTP v (pre ++ line :: post) scanErr = (none, some errMetric) := by
  obtain ⟨s1, hs1⟩ := scanLoop_append_recognized v x hv pre (line :: post) hpre {}
  apply parseSCTP_of_loop_error
  rw [hs1]
  exact scanLoop_cons_unknown v s1 line post x hlen hv hname

/-- C2, witness of the amended statement: `BadKey 42` after an accepted line. -/
theorem parseSCTP_unrecognized_key_witness :
    parseSCTP "42" (["SctpInSCTPPacks 42"] ++ "BadKey 42" :: ["SctpOutSCTPPacks 42"]) none
      = (none, some errMetric) :=
  parseSCTP_unrecognized_key "42" 42 ["SctpInSCTPPacks 42"] ["SctpOutSCTPPacks 42"]
    "BadKey 42" none (by decide) (by decide) (by decide) (by decide)

/-- C3, as stated, fails: on the lines `BadKey 5` and `SctpInSCTPPacks 42 99`
(with `5` the string parsed) the first line is rejected for its name, so the
call ends with the unrecognized-key error and not with the malformed-line
error of the second line. -/
theorem parseSCTP_malformed_after_unknown :
    parseSCTP "5" ["BadKey 5", "SctpInSCTPPacks 42 99"] none = (none, some errMetric) ∧
      errMetric ≠ errFields := by
  decide

/-- C3, amended. If `line` does not split into exactly two fields, every line
before it has exactly two fields and a recognized name, and (when there is a
line before it) the string the code parses as the value is a valid integer,
then `parseSCTP` fails with the malformed-line error and returns no record. -/
theorem parseSCTP_malformed_line (v : String) (pre post : List String) (line : String)
    (scanErr : Option Error)
    (hv : pre ≠ [] → ∃ x, ParseInt v = Except.ok x)
    (hpre : ∀ l ∈ pre, recognizedLine l)
    (hlen : (Fields line).length ≠ 2) :
    parseSCTP v (pre ++ line :: post) scanErr = (none, some errFields) := by
  apply parseSCTP_of_loop_error
  cases pre with
  | nil => exact scanLoop_cons_malformed v {} line post hlen
  | cons l ls =>
    obtain ⟨x, hx⟩ := hv (List.cons_ne_nil l ls)
    obtain ⟨s1, hs1⟩ := scanLoop_append_recognized v x hx (l :: ls) (line :: post) hpre {}
    rw [hs1]
    exact scanLoop_cons_malformed v s1 line post hlen

/-- C3, witness of the amended statement: the line `SctpInSCTPPacks 42 99`
alone, and the same line after an accepted one. -/
theorem parseSCTP_malformed_line_witness :
    parseSCTP "42" ([] ++ "SctpInSCTPPacks 42 99" :: []) none = (none, some errFields) ∧
      parseSCTP "42" (["SctpOutSCTPPacks 42"] ++ "SctpInSCTPPacks 42 99" :: ["X 1"]) none
        = (none, some errFields) :=
  ⟨parseSCTP_malformed_line "42" [] [] "SctpInSCTPPacks 42 99" none
      (fun h => absurd rfl h) (by decide) (by decide),
    parseSCTP_malformed_line "42" ["SctpOutSCTPPacks 42"] ["X 1"] "SctpInSCTPPacks 42 99" none
      (fun _ => ⟨42, by decide⟩) (by decide) (by decide)⟩

/-- C5 (the code departs from the claim). The switch of `sctp.go:102-149`
has no case for `SctpCurrEstab`, although the record declares `CurrEstab`: on
the line `SctpCurrEstab -1` the call returns no record for any `v`, and with
`-1` the string parsed it ends in the `default` case with the
unrecognized-key error. -/
theorem parseSCTP_CurrEstab_rejected (v : String) :
    (parseSCTP v ["SctpCurrEstab -1"] none).1 = none ∧
      ParseInt "-1" = Except.ok (-1) ∧
      parseSCTP "-1" ["SctpCurrEstab -1"] none = (none, some errMetric) := by
  have h1 : Fields "SctpCurrEstab -1" = ["SctpCurrEstab", "-1"] := by decide
  refine ⟨?_, by decide, by decide⟩
  cases hv : ParseInt v with
  | error err => simp [parseSCTP, scanLoop, h1, hv]
  | ok x => simp [parseSCTP, scanLoop, h1, hv, assign]

/-- C6 (the code departs from the claim). The dispatch is not exhaustive over
the record: whatever the lines, the string parsed and the scanner's error, a
record returned by `parseSCTP` has `CurrEstab`, `ActiveEstabs`,
`PassiveEstabs`, `Aborteds`, `Shutdowns`, `OutOfBlues`, `ChecksumErrors`,
`OutCtrlChunks`, `OutOrderChunks` and `OutUnorderChunks` equal to 0, so no
name sets any of these ten fields to another value. -/
theorem parseSCTP_unassigned_fields_zero (v : String) (lines : List String)
    (scanErr : Option Error) (r : SCTP) (h : (parseSCTP v lines scanErr).1 = some r) :
    r.CurrEstab = 0 ∧ r.ActiveEstabs = 0 ∧ r.PassiveEstabs = 0 ∧ r.Aborteds = 0 ∧
      r.Shutdowns = 0 ∧ r.OutOfBlues = 0 ∧ r.ChecksumErrors = 0 ∧ r.OutCtrlChunks = 0 ∧
      r.OutOrderChunks = 0 ∧ r.OutUnorderChunks = 0 := by
  unfold parseSCTP at h
  cases hl : scanLoop v {} lines with
  | error err => simp [hl] at h
  | ok s =>
    simp only [hl, Option.some.injEq] at h
    subst h
    exact scanLoop_sameUnassigned v lines {} s hl

/-- C6, witness: a record returned for two accepted lines. -/
theorem parseSCTP_unassigned_fields_zero_witness :
    (parseSCTP "5" ["SctpInSCTPPacks 5", "SctpFastRetransmits 5"] none).1
        = some { InSCTPPacks := 5, FastRetransmits := 5 } ∧
      (({ InSCTPPacks := 5, FastRetransmits := 5 } : SCTP).CurrEstab = 0 ∧
        ({ InSCTPPacks := 5, FastRetransmits := 5 } : SCTP).ActiveEstabs = 0 ∧
        ({ InSCTPPacks := 5, FastRetransmits := 5 } : SCTP).PassiveEstabs = 0 ∧
        ({ InSCTPPacks := 5, FastRetransmits := 5 } : SCTP).Aborteds = 0 ∧
        ({ InSCTPPacks := 5, FastRetransmits := 5 } : SCTP).Shutdowns = 0 ∧
        ({ InSCTPPacks := 5, FastRetransmits := 5 } : SCTP).OutOfBlues = 0 ∧
        ({ InSCTPPacks := 5, FastRetransmits := 5 } : SCTP).ChecksumErrors = 0 ∧
        ({ InSCTPPacks := 5, FastRetransmits := 5 } : SCTP).OutCtrlChunks = 0 ∧
        ({ InSCTPPacks := 5, FastRetransmits := 5 } : SCTP).OutOrderChunks = 0 ∧
        ({ InSCTPPacks := 5, FastRetransmits := 5 } : SCTP).OutUnorderChunks = 0) :=
  ⟨by decide,
    parseSCTP_unassigned_fields_zero "5" ["SctpInSCTPPacks 5", "SctpFastRetransmits 5"] none
      { InSCTPPacks := 5, FastRetransmits := 5 } (by decide)⟩

/-- C7 (the code departs from the claim). With `SctpInSCTPPacks` on two
lines, the values `1` and `2` on the lines do not reach the field: for every
`v` the lines in the order `1`, `2` and in the order `2`, `1` give the same
result, and with `1` the string parsed the field is 1, the value of the
earlier line, where the claim states 2. -/
theorem parseSCTP_repeated_name_same_result (v : String) :
    parseSCTP v ["SctpInSCTPPacks 1", "SctpInSCTPPacks 2"] none
        = parseSCTP v ["SctpInSCTPPacks 2", "SctpInSCTPPacks 1"] none ∧
      parseSCTP "1" ["SctpInSCTPPacks 1", "SctpInSCTPPacks 2"] none
        = (some { InSCTPPacks := 1 }, none) := by
  have h1 : Fields "SctpInSCTPPacks 1" = ["SctpInSCTPPacks", "1"] := by decide
  have h2 : Fields "SctpInSCTPPacks 2" = ["SctpInSCTPPacks", "2"] := by decide
  refine ⟨?_, by decide⟩
  cases hv : ParseInt v with
  | error err => simp [parseSCTP, scanLoop, h1, h2, hv]
  | ok x => simp [parseSCTP, scanLoop, h1, h2, hv, assign]

/-- C8. For an input with no line and no read error, `parseSCTP` returns no
error and the record whose 32 fields are all 0, whatever `v` is. -/
theorem parseSCTP_no_lines (v : String) :
    parseSCTP v [] none
      = (some {
          CurrEstab := 0, ActiveEstabs := 0, PassiveEstabs := 0,
          Aborteds := 0, Shutdowns := 0, OutOfBlues := 0,
          ChecksumErrors := 0, OutCtrlChunks := 0, OutOrderChunks := 0,
          OutUnorderChunks := 0, InCtrlChunks := 0, InOrderChunks := 0,
          InUnorderChunks := 0, FragUsrMsgs := 0, ReasmUsrMsgs := 0,
          OutSCTPPacks := 0, InSCTPPacks := 0, T1InitExpireds := 0,
          T1CookieExpireds := 0, T2ShutdownExpireds := 0, T3RtxExpireds := 0,
          T4RtoExpireds := 0, T5ShutdownGuardExpireds := 0, DelaySackExpireds := 0,
          AutocloseExpireds := 0, T3Retransmits := 0, PmtudRetransmits := 0,
          FastRetransmits := 0, InPktSoftirq := 0, InPktBacklog := 0,
          InPktDiscards := 0, InDataChunkDiscards := 0 }, none) := by
  rfl

/-- C9 (the code departs from the claim). The three returns inside the loop
(`sctp.go:93`, `99`, `148`) give no record with their error, but
`sctp.go:152` returns the record together with `scanner.Err()`: for every
`v` and every read error `e`, a reader that fails before the first line
gets the zero record with `e`, and after the line `SctpInSCTPPacks 42` (with
`42` the string parsed) the record holding `InSCTPPacks = 42` with `e`. -/
theorem parseSCTP_record_with_read_error (v : String) (e : Error) :
    parseSCTP v [] (some e) = (some {}, some e) ∧
      parseSCTP "42" ["SctpInSCTPPacks 42"] (some e)
        = (some { InSCTPPacks := 42 }, some e) := by
  refine ⟨rfl, ?_⟩
  have h : scanLoop "42" {} ["SctpInSCTPPacks 42"] = Except.ok { InSCTPPacks := 42 } := by
    decide
  exact parseSCTP_of_loop_ok "42" ["SctpInSCTPPacks 42"] (some e) _ h

/-- C10, as stated, fails: for the line `BadKey 5` (with `5` the string
parsed) the error is `fmt.Errorf("invalid sctp metric")`, and its message
does not contain `BadKey`. -/
theorem parseSCTP_BadKey_message :
    parseSCTP "5" ["BadKey 5"] none = (none, some (Error.errorf "invalid sctp metric")) ∧
      ¬ List.IsInfix "BadKey".data "invalid sctp metric".data := by
  decide

/-- C10, amended. When `parseSCTP` rejects a line for an unrecognized first
token (every earlier line has two fields and a recognized name, the line has
two fields, the string parsed is a valid integer), the error returned is
`fmt.Errorf("invalid sctp metric")`: one fixed message, the same for every
unknown token. -/
theorem parseSCTP_unrecognized_key_message (v : String) (x : Int) (pre post : List String)
    (line : String) (scanErr : Option Error)
    (hv : ParseInt v = Except.ok x)
    (hpre : ∀ l ∈ pre, recognizedLine l)
    (hlen : (Fields line).length = 2)
    (hname : (Fields line).headD "" ∉ recognizedNames) :
    (parseSCTP v (pre ++ line :: post) scanErr).2
      = some (Error.errorf "invalid sctp metric") := by
  obtain ⟨s1, hs1⟩ := scanLoop_append_recognized v x hv pre (line :: post) hpre {}
  have h := scanLoop_cons_unknown v s1 line post x hlen hv hname
  rw [parseSCTP_of_loop_error v (pre ++ line :: post) scanErr errMetric (hs1.trans h)]
  rfl

/-- C10, witness of the amended statement: the line `BadKey 5`. -/
theorem parseSCTP_unrecognized_key_message_witness :
    (parseSCTP "5" ([] ++ "BadKey 5" :: []) none).2
      = some (Error.errorf "invalid sctp metric") :=
  parseSCTP_unrecognized_key_message "5" 5 [] [] "BadKey 5" none
    (by decide) (by decide) (by decide) (by decide)

/-! ## Read errors -/

/-- C11. If every line the scanner delivers has exactly two fields and a
recognized name, the value parsed for the lines is a valid integer, and the
scanner then reports the read error `e`, then `parseSCTP` returns exactly
`e` as its error (next to the record populated from the lines). -/
theorem parseSCTP_read_error_propagated (v : String) (lines : List String) (e : Error)
    (hlines : ∀ l ∈ lines, recognizedLine l)
    (hv : lines ≠ [] → ∃ x, ParseInt v = Except.ok x) :
    ∃ sctp, parseSCTP v lines (some e) = (some sctp, some e) := by
  cases lines with
  | nil => exact ⟨{}, rfl⟩
  | cons l ls =>
    obtain ⟨x, hx⟩ := hv (List.cons_ne_nil l ls)
    obtain ⟨s1, hs1⟩ := scanLoop_append_recognized v x hx (l :: ls) [] hlines {}
    rw [List.append_nil, scanLoop_nil] at hs1
    exact ⟨s1, parseSCTP_of_loop_ok v (l :: ls) (some e) s1 hs1⟩

/-- C11, witness: two accepted lines, then a read error. -/
theorem parseSCTP_read_error_propagated_witness :
    ∃ sctp, parseSCTP "7" ["SctpInSCTPPacks 7", "SctpOutSCTPPacks 7"]
      (some (Error.other "unexpected EOF")) = (some sctp, some (Error.other "unexpected EOF")) :=
  parseSCTP_read_error_propagated "7" ["SctpInSCTPPacks 7", "SctpOutSCTPPacks 7"]
    (Error.other "unexpected EOF") (by decide) (fun _ => ⟨7, by decide⟩)

/-! ## The switch as an update of one position -/

theorem SCTP.toList_injective (a b : SCTP) (h : a.toList = b.toList) : a = b := by
  cases a
  cases b
  simp only [SCTP.toList, List.cons.injEq, and_true] at h
  simp only [SCTP.mk.injEq]
  exact h

theorem assign_toList (sctp sctp' : SCTP) (name : String) (value : Int)
    (h : assign sctp name value = some sctp') :
    ∃ i, fieldIndex name = some i ∧ i < 32 ∧ sctp'.toList = sctp.toList.set i value := by
  unfold assign at h
  split at h <;> simp at h <;> subst h <;> exact ⟨_, rfl, by decide, rfl⟩

theorem fieldIndex_injective :
    ∀ a ∈ recognizedNames, ∀ b ∈ recognizedNames, fieldIndex a = fieldIndex b → a = b := by
  decide

theorem SCTP.toList_length (s : SCTP) : s.toList.length = 32 := rfl

theorem scanLoop_cons_congr (v : String) (sctp : SCTP) (a b : String) (rest : List String)
    (hlen : (Fields a).length = (Fields b).length)
    (hhead : (Fields a).headD "" = (Fields b).headD "") :
    scanLoop v sctp (a :: rest) = scanLoop v sctp (b :: rest) := by
  rw [scanLoop, scanLoop]
  simp only [hlen, hhead]

theorem scanLoop_line_frame (v name line : String) (x : Int) (sctp : SCTP)
    (hname : name ∈ recognizedNames)
    (hlen : (Fields line).length = 2)
    (hhead : (Fields line).headD "" = name)
    (hv : ParseInt v = Except.ok x) :
    ∃ i sctp', fieldIndex name = some i ∧
      scanLoop v sctp [line] = Except.ok sctp' ∧
      sctp'.toList = sctp.toList.set i x ∧
      sctp'.toList.get? i = some x ∧
      ∀ other ∈ recognizedNames, fieldIndex other = some i → other = name := by
  obtain ⟨s1, hs1⟩ := assign_isSome_of_mem sctp name x hname
  obtain ⟨i, hi, hlt, hset⟩ := assign_toList sctp s1 name x hs1
  refine ⟨i, s1, hi, ?_, hset, ?_, ?_⟩
  · rw [scanLoop_cons_assign v sctp s1 line [] x hlen hv (by rw [hhead]; exact hs1)]
    rfl
  · rw [hset, List.get?_eq_getElem?]
    exact List.getElem?_set_self (by rw [SCTP.toList_length]; exact hlt)
  · intro other hother hoi
    exact fieldIndex_injective other hother name hname (hoi.trans hi.symm)

/-- C12 (the code departs from the claim). The value a line carries does not
reach the record: for every `v` and every record, the lines
`SctpInSCTPPacks 1` and `SctpInSCTPPacks 2` leave the same result, and with
`5` the string parsed the line `SctpInSCTPPacks 7` sets the field to 5, not
to 7. The rest of the claim holds of the switch: whenever the parse of
`sctp.go:97` gives `x`, a line with the recognized name `name` changes the
record at the position `fieldIndex name` only, which becomes `x`, and no
other recognized name has that position. -/
theorem scanLoop_value_token_ignored (v : String) (sctp : SCTP) :
    scanLoop v sctp ["SctpInSCTPPacks 1"] = scanLoop v sctp ["SctpInSCTPPacks 2"] ∧
      scanLoop "5" { InSCTPPacks := 1, OutSCTPPacks := 9 } ["SctpInSCTPPacks 7"]
        = Except.ok { InSCTPPacks := 5, OutSCTPPacks := 9 } ∧
      ∀ (name line : String) (x : Int), name ∈ recognizedNames →
        (Fields line).length = 2 → (Fields line).headD "" = name →
        ParseInt v = Except.ok x →
        ∃ i sctp', fieldIndex name = some i ∧
          scanLoop v sctp [line] = Except.ok sctp' ∧
          sctp'.toList = sctp.toList.set i x ∧
          sctp'.toList.get? i = some x ∧
          ∀ other ∈ recognizedNames, fieldIndex other = some i → other = name :=
  ⟨scanLoop_cons_congr v sctp _ _ [] (by decide) (by decide), by decide,
    fun name line x hname hlen hhead hv =>
      scanLoop_line_frame v name line x sctp hname hlen hhead hv⟩

/-! ## The order of the lines -/

theorem scanLoop_cons_ok (v : String) (sctp sctp' : SCTP) (line : String) (rest : List String)
    (h : scanLoop v sctp (line :: rest) = Except.ok sctp') :
    ∃ x s1, (Fields line).length = 2 ∧ ParseInt v = Except.ok x ∧
      assign sctp ((Fields line).headD "") x = some s1 ∧ scanLoop v s1 rest = Except.ok sctp' := by
  rw [scanLoop] at h
  simp only at h
  split at h
  · cases h
  · rename_i hlen
    split at h
    · cases h
    · rename_i x hx
      split at h
      · cases h
      · rename_i s1 hs1
        exact ⟨x, s1, not_not.1 hlen, hx, hs1, h⟩

theorem assign_comm (sctp sa sab sb : SCTP) (a b : String) (x : Int)
    (ha : assign sctp a x = some sa) (hab : assign sa b x = some sab)
    (hb : assign sctp b x = some sb) :
    ∃ sba, assign sb a x = some sba ∧ sba = sab := by
  have hbmem : b ∈ recognizedNames := by
    by_contra hn
    rw [(assign_eq_none_iff sctp b x).2 hn] at hb
    cases hb
  have hamem : a ∈ recognizedNames := by
    by_contra hn
    rw [(assign_eq_none_iff sctp a x).2 hn] at ha
    cases ha
  obtain ⟨sba, hsba⟩ := assign_isSome_of_mem sb a x hamem
  refine ⟨sba, hsba, ?_⟩
  obtain ⟨i, hi, _, h1⟩ := assign_toList sctp sa a x ha
  obtain ⟨j, hj, _, h2⟩ := assign_toList sa sab b x hab
  obtain ⟨j', hj', _, h3⟩ := assign_toList sctp sb b x hb
  obtain ⟨i', hi', _, h4⟩ := assign_toList sb sba a x hsba
  have hii : i' = i := Option.some.inj (hi'.symm.trans hi)
  have hjj : j' = j := Option.some.inj (hj'.symm.trans hj)
  subst hii
  subst hjj
  apply SCTP.toList_injective
  rw [h4, h3, h2, h1]
  by_cases hij : i' = j'
  · subst hij
    rfl
  · exact List.set_comm x x _ (Ne.symm hij)

theorem scanLoop_perm (v : String) (l1 l2 : List String) (hperm : l1.Perm l2) :
    ∀ sctp sctp', scanLoop v sctp l1 = Except.ok sctp' → scanLoop v sctp l2 = Except.ok sctp' := by
  induction hperm with
  | nil => exact fun _ _ h => h
  | cons a _ ih =>
    intro sctp sctp' h
    obtain ⟨x, s1, hlen, hx, hs1, hrest⟩ := scanLoop_cons_ok v sctp sctp' a _ h
    rw [scanLoop_cons_assign v sctp s1 a _ x hlen hx hs1]
    exact ih s1 sctp' hrest
  | swap a b l =>
    intro sctp sctp' h
    obtain ⟨x, s1, hlen1, hx, hs1, hrest1⟩ := scanLoop_cons_ok v sctp sctp' b _ h
    obtain ⟨y, s2, hlen2, hy, hs2, hrest2⟩ := scanLoop_cons_ok v s1 sctp' a _ hrest1
    have hxy : y = x := Except.ok.inj (hy.symm.trans hx)
    subst hxy
    obtain ⟨t1, ht1⟩ : ∃ t1, assign sctp ((Fields a).headD "") y = some t1 := by
      apply assign_isSome_of_mem
      by_contra hn
      rw [(assign_eq_none_iff s1 _ y).2 hn] at hs2
      cases hs2
    obtain ⟨t2, ht2, heq⟩ := assign_comm sctp s1 s2 t1 _ _ y hs1 hs2 ht1
    subst heq
    rw [scanLoop_cons_assign v sctp t1 a _ y hlen2 hx ht1,
      scanLoop_cons_assign v t1 t2 b _ y hlen1 hx ht2]
    exact hrest2
  | trans _ _ ih1 ih2 => exact fun sctp sctp' h => ih2 sctp sctp' (ih1 sctp sctp' h)

/-- C17. If `parseSCTP` accepts the lines `lines` (it returns the record `r`
and no error) and the names on the lines are pairwise distinct, then it
accepts every permutation `lines'` of them and returns the same record. -/
theorem parseSCTP_perm (v : String) (lines lines' : List String) (r : SCTP)
    (hacc : parseSCTP v lines none = (some r, none))
    (_hdistinct : (lines.map (fun l => (Fields l).headD "")).Nodup)
    (hperm : lines'.Perm lines) :
    parseSCTP v lines' none = (some r, none) := by
  have hloop : scanLoop v {} lines = Except.ok r := by
    unfold parseSCTP at hacc
    split at hacc
    · cases hacc
    · rename_i s hs
      cases hacc
      exact hs
  exact parseSCTP_of_loop_ok v lines' none r (scanLoop_perm v lines lines' hperm.symm {} r hloop)

/-- C17, witness: three accepted lines with distinct names, reordered. -/
theorem parseSCTP_perm_witness :
    parseSCTP "3" ["SctpFastRetransmits 3", "SctpInSCTPPacks 3", "SctpOutSCTPPacks 3"] none
      = (some { InSCTPPacks := 3, OutSCTPPacks := 3, FastRetransmits := 3 }, none) :=
  parseSCTP_perm "3" ["SctpInSCTPPacks 3", "SctpOutSCTPPacks 3", "SctpFastRetransmits 3"]
    ["SctpFastRetransmits 3", "SctpInSCTPPacks 3", "SctpOutSCTPPacks 3"]
    { InSCTPPacks := 3, OutSCTPPacks := 3, FastRetransmits := 3 }
    (by decide) (by decide) (by decide)

/-! ## The terminating newline -/

theorem scanLines_samples :
    scanLines "a 1\nb 2" = (["a 1", "b 2"], none) ∧
      scanLines "a 1\nb 2\n" = (["a 1", "b 2"], none) ∧
      scanLines "a 1\r\nb 2\r\n" = (["a 1", "b 2"], none) ∧
      scanLines "a 1\n\nb 2\n\n" = (["a 1", "", "b 2", ""], none) ∧
      scanLines "" = ([], none) ∧ scanLines "\n" = ([""], none) := by
  decide

theorem scanLinesAux_no_newline (cs cur : List Char) (h : ∀ c ∈ cs, c ≠ Char.ofNat 10) :
    scanLinesAux cs cur = scanLinesAux [] (cs.reverse ++ cur) := by
  induction cs generalizing cur with
  | nil => rfl
  | cons c cs ih =>
    have hc : c ≠ Char.ofNat 10 := h c (List.mem_cons_self c cs)
    have e : scanLinesAux (c :: cs) cur = scanLinesAux cs (c :: cur) := by
      simp [scanLinesAux, hc]
    rw [e, ih (c :: cur) (fun a ha => h a (List.mem_cons_of_mem c ha))]
    simp

/-- A text without newline of `maxScanTokenSize` bytes or more yields no line
and the error `ErrTooLong`. -/
theorem scanLines_too_long (text : String) (h : ∀ c ∈ text.data, c ≠ Char.ofNat 10)
    (hlen : maxScanTokenSize ≤ byteLen text.data) :
    scanLines text = ([], some errTooLong) := by
  have hb : byteLen (text.data.reverse ++ []) = byteLen text.data := by
    simp [byteLen, List.sum_reverse]
  have hne : (text.data.reverse ++ []).isEmpty = false := by
    cases ht : text.data with
    | nil =>
      rw [ht] at hlen
      exact absurd hlen (by decide)
    | cons c cs => simp
  unfold scanLines
  rw [scanLinesAux_no_newline text.data [] h, scanLinesAux, hne]
  simp only [Bool.false_eq_true, if_false, hb]
  rw [if_pos hlen]

theorem scanLines_too_long_sample :
    scanLines (String.mk (List.replicate 65536 'a')) = ([], some errTooLong) := by
  apply scanLines_too_long
  · intro c hc
    rw [List.eq_of_mem_replicate hc]
    decide
  · have h1 : Char.utf8Size 'a' = 1 := by decide
    show maxScanTokenSize ≤ ((List.replicate 65536 'a').map Char.utf8Size).sum
    rw [List.map_replicate, List.sum_replicate, h1, smul_eq_mul]
    decide

theorem scanLinesAux_append_newline (cs cur : List Char)
    (hlast : cs.getLast? ≠ some (Char.ofNat 10)) (hne : cs = [] → cur ≠ []) :
    scanLinesAux (cs ++ [Char.ofNat 10]) cur = scanLinesAux cs cur := by
  induction cs generalizing cur with
  | nil =>
    have hcur : cur.isEmpty = false := by
      cases cur with
      | nil => exact absurd rfl (hne rfl)
      | cons _ _ => rfl
    by_cases hlong : byteLen cur ≥ maxScanTokenSize <;> simp [scanLinesAux, hcur, hlong]
  | cons c cs ih =>
    have hlast' : cs ≠ [] → cs.getLast? ≠ some (Char.ofNat 10) := by
      intro hcs
      cases cs with
      | nil => exact absurd rfl hcs
      | cons d ds => rwa [List.getLast?_cons_cons] at hlast
    rw [List.cons_append, scanLinesAux, scanLinesAux]
    by_cases hc : c = Char.ofNat 10
    · have hcs : cs ≠ [] := by
        intro h
        subst h
        subst hc
        exact hlast rfl
      rw [if_pos hc, if_pos hc, ih [] (hlast' hcs) (fun h => absurd h hcs)]
    · rw [if_neg hc, if_neg hc]
      by_cases hcs : cs = []
      · subst hcs
        exact ih (c :: cur) (by simp) (fun _ => List.cons_ne_nil c cur)
      · exact ih (c :: cur) (hlast' hcs) (fun h => absurd h hcs)

theorem scanLinesAux_append_two_newlines (cs cur : List Char)
    (hlast : cs.getLast? ≠ some (Char.ofNat 10)) (hne : cs = [] → cur ≠ []) :
    scanLinesAux (cs ++ [Char.ofNat 10, Char.ofNat 10]) cur
      = if (scanLinesAux cs cur).2.isNone then ((scanLinesAux cs cur).1 ++ [""], none)
        else scanLinesAux cs cur := by
  have hempty : String.mk (dropCR ([] : List Char)) = "" := by decide
  have hzero : ¬ byteLen ([] : List Char) ≥ maxScanTokenSize := by decide
  induction cs generalizing cur with
  | nil =>
    have hcur : cur.isEmpty = false := by
      cases cur with
      | nil => exact absurd rfl (hne rfl)
      | cons _ _ => rfl
    by_cases hlong : byteLen cur ≥ maxScanTokenSize <;>
      simp [scanLinesAux, hcur, hlong, hempty, hzero]
  | cons c cs ih =>
    have hlast' : cs ≠ [] → cs.getLast? ≠ some (Char.ofNat 10) := by
      intro hcs
      cases cs with
      | nil => exact absurd rfl hcs
      | cons d ds => rwa [List.getLast?_cons_cons] at hlast
    rw [List.cons_append, scanLinesAux, scanLinesAux]
    by_cases hc : c = Char.ofNat 10
    · have hcs : cs ≠ [] := by
        intro h
        subst h
        subst hc
        exact hlast rfl
      rw [if_pos hc, if_pos hc, ih [] (hlast' hcs) (fun h => absurd h hcs)]
      by_cases hlong : byteLen cur ≥ maxScanTokenSize
      · simp [hlong]
      · cases hY : (scanLinesAux cs []).2 <;> simp [hlong, hY]
    · rw [if_neg hc, if_neg hc]
      by_cases hcs : cs = []
      · subst hcs
        exact ih (c :: cur) (by simp) (fun _ => List.cons_ne_nil c cur)
      · exact ih (c :: cur) (hlast' hcs) (fun h => absurd h hcs)

theorem scanLoop_append_ok (v : String) (l1 l2 : List String) (sctp s1 : SCTP)
    (h : scanLoop v sctp l1 = Except.ok s1) :
    scanLoop v sctp (l1 ++ l2) = scanLoop v s1 l2 := by
  induction l1 generalizing sctp with
  | nil =>
    rw [scanLoop_nil] at h
    cases h
    rfl
  | cons a l ih =>
    obtain ⟨x, t, hlen, hx, ht, hrest⟩ := scanLoop_cons_ok v sctp s1 a l h
    rw [List.cons_append, scanLoop_cons_assign v sctp t a (l ++ l2) x hlen hx ht]
    exact ih t hrest

/-- C18. For every non-empty text `s` that does not end in a newline, for
every `v`: parsing `s` followed by one newline gives the same result as
parsing `s` (the same record, or the same error, `ErrTooLong` included); and
when `s` is accepted (a record and no error), `s` followed by two newlines
is rejected with the malformed-line error. -/
theorem parseSCTPText_trailing_newline (v s : String)
    (hne : s.data ≠ [])
    (hlast : s.data.getLast? ≠ some (Char.ofNat 10)) :
    parseSCTPText v (s ++ "\n") = parseSCTPText v s ∧
      ∀ r, parseSCTPText v s = (some r, none) →
        parseSCTPText v (s ++ "\n\n") = (none, some errFields) := by
  have h1 : scanLines (s ++ "\n") = scanLines s :=
    scanLinesAux_append_newline s.data [] hlast (fun h => absurd h hne)
  have h2 : scanLines (s ++ "\n\n")
      = if (scanLines s).2.isNone then ((scanLines s).1 ++ [""], none) else scanLines s :=
    scanLinesAux_append_two_newlines s.data [] hlast (fun h => absurd h hne)
  refine ⟨by unfold parseSCTPText; rw [h1], ?_⟩
  intro r hr
  have hloop : scanLoop v {} (scanLines s).1 = Except.ok r ∧ (scanLines s).2 = none := by
    unfold parseSCTPText parseSCTP at hr
    split at hr
    · cases hr
    · rename_i t ht
      simp only [Prod.mk.injEq, Option.some.injEq] at hr
      exact ⟨by rw [ht, hr.1], hr.2⟩
  unfold parseSCTPText
  rw [h2, hloop.2]
  simp only [Option.isNone_none, if_true]
  apply parseSCTP_of_loop_error
  rw [scanLoop_append_ok v (scanLines s).1 [""] {} r hloop.1]
  exact scanLoop_cons_malformed v r "" [] (by decide)

/-- C18, witness: the text of two accepted lines, without and with newlines
at its end. -/
theorem parseSCTPText_trailing_newline_witness :
    parseSCTPText "42" ("SctpInSCTPPacks 42\nSctpOutSCTPPacks 42" ++ "\n")
        = parseSCTPText "42" "SctpInSCTPPacks 42\nSctpOutSCTPPacks 42" ∧
      ∀ r, parseSCTPText "42" "SctpInSCTPPacks 42\nSctpOutSCTPPacks 42" = (some r, none) →
        parseSCTPText "42" ("SctpInSCTPPacks 42\nSctpOutSCTPPacks 42" ++ "\n\n")
          = (none, some errFields) :=
  parseSCTPText_trailing_newline "42" "SctpInSCTPPacks 42\nSctpOutSCTPPacks 42"
    (by decide) (by decide)

theorem parseSCTPText_sample :
    parseSCTPText "42" "SctpInSCTPPacks 42\nSctpOutSCTPPacks 42"
        = (some { InSCTPPacks := 42, OutSCTPPacks := 42 }, none) ∧
      parseSCTPText "42" "SctpInSCTPPacks 42\nSctpOutSCTPPacks 42\n\n"
        = (none, some errFields) := by
  decide

/-! ## `ParseInt` and signed decimal numerals -/

theorem decimalFrom_cons (n : Nat) (c : Char) (cs : List Char) :
    decimalFrom n (c :: cs) = decimalFrom (n * 10 + (c.toNat - 48)) cs := rfl

theorem le_decimalFrom (ds : List Char) (n : Nat) : n ≤ decimalFrom n ds := by
  induction ds generalizing n with
  | nil => exact Nat.le_refl n
  | cons c cs ih =>
    rw [decimalFrom_cons]
    exact Nat.le_trans (by omega) (ih _)

theorem digitVal_of_digit (c : Char) (h : isDecimalDigit c = true) :
    digitVal c = some (c.toNat - 48) ∧ c.toNat - 48 < 10 := by
  simp only [isDecimalDigit, decide_eq_true_eq] at h
  refine ⟨?_, by omega⟩
  unfold digitVal
  simp only [h, and_self, if_true]

theorem digitVal_of_not_digit (c : Char) (h : isDecimalDigit c = false) :
    digitVal c = none ∨ ∃ d, digitVal c = some d ∧ 10 ≤ d := by
  simp only [isDecimalDigit, decide_eq_false_iff_not] at h
  unfold digitVal
  simp only [h, if_false]
  split
  · exact Or.inr ⟨_, rfl, by omega⟩
  · exact Or.inl rfl

theorem parseUintLoop_cases (ds : List Char) (n : Nat) (hn : n ≤ maxUint64) :
    (parseUintLoop ds n = (decimalFrom n ds, none) ∧ (∀ c ∈ ds, isDecimalDigit c = true) ∧
        decimalFrom n ds ≤ maxUint64) ∨
      (parseUintLoop ds n = (0, some NumErr.ErrSyntax) ∧
        ¬ (∀ c ∈ ds, isDecimalDigit c = true)) ∨
      (parseUintLoop ds n = (maxUint64, some NumErr.ErrRange) ∧
        ((∀ c ∈ ds, isDecimalDigit c = true) → maxUint64 < decimalFrom n ds)) := by
  induction ds generalizing n with
  | nil =>
    refine Or.inl ⟨rfl, ?_, hn⟩
    intro c hc
    cases hc
  | cons c cs ih =>
    have hmax : maxUint64 = 18446744073709551615 := by decide
    cases hd : isDecimalDigit c with
    | false =>
      refine Or.inr (Or.inl ⟨?_, ?_⟩)
      · rcases digitVal_of_not_digit c hd with h | ⟨d, h, hge⟩
        · simp [parseUintLoop, h]
        · simp [parseUintLoop, h, parseBase, hge]
      · intro hall
        rw [hall c (List.mem_cons_self c cs)] at hd
        cases hd
    | true =>
      obtain ⟨hval, hlt⟩ := digitVal_of_digit c hd
      have hall : (∀ a ∈ c :: cs, isDecimalDigit a = true) ↔ ∀ a ∈ cs, isDecimalDigit a = true := by
        constructor
        · exact fun h a ha => h a (List.mem_cons_of_mem c ha)
        · intro h a ha
          rcases List.mem_cons.1 ha with rfl | ha
          · exact hd
          · exact h a ha
      have hmono := le_decimalFrom cs (n * 10 + (c.toNat - 48))
      rw [parseUintLoop, hval]
      simp only [parseBase, hmax] at *
      rw [if_neg (by omega)]
      by_cases h1 : n ≥ 18446744073709551615 / 10 + 1
      · rw [if_pos h1]
        refine Or.inr (Or.inr ⟨rfl, fun _ => ?_⟩)
        rw [decimalFrom_cons]
        omega
      · rw [if_neg h1]
        by_cases h2 : n * 10 + (c.toNat - 48) ≤ 18446744073709551615
        · have e1 : (n * 10 % 2 ^ 64 + (c.toNat - 48)) % 2 ^ 64 = n * 10 + (c.toNat - 48) := by
            norm_num
            omega
          have e2 : n * 10 % 2 ^ 64 = n * 10 := by
            norm_num
            omega
          simp only [e1]
          rw [e2, if_neg (by omega), decimalFrom_cons, hall]
          exact ih _ h2
        · have e1 : (n * 10 % 2 ^ 64 + (c.toNat - 48)) % 2 ^ 64 < n * 10 % 2 ^ 64 := by
            norm_num
            omega
          rw [if_pos (Or.inl e1)]
          refine Or.inr (Or.inr ⟨rfl, fun _ => ?_⟩)
          rw [decimalFrom_cons]
          omega

theorem int64_of_small (un : Nat) (h : un < 2 ^ 63) : int64 (un : Int) = un := by
  unfold int64
  norm_num at h ⊢
  omega

theorem int64_neg_int64 (un : Nat) (h : un ≤ 2 ^ 63) : int64 (-(int64 (un : Int))) = -(un : Int) := by
  unfold int64
  norm_num at h ⊢
  omega

theorem ParseUint_of_ne_nil (rest : List Char) (h : rest ≠ []) :
    ParseUint rest = parseUintLoop rest 0 := by
  cases rest with
  | nil => exact absurd rfl h
  | cons _ _ => rfl

theorem ParseInt_ok_iff_core (s : String) (c : Char) (cs rest : List Char) (x : Int)
    (hs : s.data = c :: cs) (hrest : rest = if c = '+' ∨ c = '-' then cs else c :: cs) :
    ParseInt s = Except.ok x ↔
      rest ≠ [] ∧ (∀ d ∈ rest, isDecimalDigit d = true) ∧
        (if c = '-' then decimalFrom 0 rest ≤ 2 ^ 63 ∧ x = -(decimalFrom 0 rest : Int)
          else decimalFrom 0 rest < 2 ^ 63 ∧ x = (decimalFrom 0 rest : Int)) := by
  unfold ParseInt
  rw [hs]
  simp only [beq_iff_eq]
  rw [← hrest]
  by_cases hnil : rest = []
  · subst hnil
    simp [ParseUint]
  · rw [ParseUint_of_ne_nil rest hnil]
    have hmax : maxUint64 = 18446744073709551615 := by decide
    rcases parseUintLoop_cases rest 0 (Nat.zero_le _) with ⟨h, hall, hle⟩ | ⟨h, hall⟩ | ⟨h, hall⟩
    · rw [h]
      simp only [hnil, ne_eq, not_false_eq_true, hall, implies_true, true_and]
      by_cases hneg : c = '-'
      · simp only [hneg, not_true_eq_false, false_and, if_false, true_and, if_true]
        by_cases hr : decimalFrom 0 rest > 2 ^ 63
        · rw [if_pos hr]
          simp only [reduceCtorEq, false_iff, not_and]
          intro h1
          omega
        · rw [if_neg hr, int64_neg_int64 _ (by omega)]
          simp only [Except.ok.injEq]
          constructor
          · intro h1
            exact ⟨hall, by omega, h1.symm⟩
          · intro h1
            exact h1.2.2.symm
      · simp only [hneg, not_false_eq_true, true_and, false_and, if_false]
        by_cases hr : decimalFrom 0 rest ≥ 2 ^ 63
        · rw [if_pos hr]
          simp only [reduceCtorEq, false_iff, not_and]
          intro h1
          omega
        · rw [if_neg hr, int64_of_small _ (by omega)]
          simp only [Except.ok.injEq]
          constructor
          · intro h1
            exact ⟨hall, by omega, h1.symm⟩
          · intro h1
            exact h1.2.2.symm
    · rw [h]
      simp only [reduceCtorEq, false_iff, not_and]
      intro _ h1
      exact absurd h1 hall
    · rw [h]
      simp only [hmax]
      by_cases hneg : c = '-'
      · simp only [hneg, not_true_eq_false, false_and, if_false, true_and, if_true]
        rw [if_pos (by norm_num)]
        simp only [reduceCtorEq, false_iff, not_and]
        intro _ h1 h2
        have := hall h1
        rw [hmax] at this
        norm_num at h2
        omega
      · simp only [hneg, not_false_eq_true, true_and, false_and, if_false]
        rw [if_pos (by norm_num)]
        simp only [reduceCtorEq, false_iff, not_and]
        intro _ h1 h2
        have := hall h1
        rw [hmax] at this
        norm_num at h2
        omega

theorem ParseInt_data_nil (s : String) (hs : s.data = []) :
    ParseInt s = Except.error (Error.numError "ParseInt" s NumErr.ErrSyntax) := by
  unfold ParseInt
  rw [hs]

theorem ParseInt_ok_iff (s : String) (x : Int) :
    ParseInt s = Except.ok x ↔ IsSignedDecimal true s x := by
  have hplus : isDecimalDigit '+' = false := by decide
  have hminus : isDecimalDigit '-' = false := by decide
  have hpm : ('+' : Char) ≠ '-' := by decide
  constructor
  · intro h
    cases hs : s.data with
    | nil =>
      rw [ParseInt_data_nil s hs] at h
      cases h
    | cons c cs =>
      obtain ⟨hne, hall, hval⟩ := (ParseInt_ok_iff_core s c cs _ x hs rfl).1 h
      by_cases hc : c = '+' ∨ c = '-'
      · rw [if_pos hc] at hne hall hval
        refine ⟨[c], cs, hs, ?_, hne, hall, ?_⟩
        · rcases hc with rfl | rfl
          · exact Or.inr (Or.inr ⟨rfl, rfl⟩)
          · exact Or.inr (Or.inl rfl)
        · by_cases hneg : c = '-'
          · subst hneg
            rw [if_pos rfl] at hval
            rw [if_pos rfl]
            refine ⟨hval.2, ?_, ?_⟩ <;> norm_num <;> omega
          · have hne' : [c] ≠ ['-'] := by simpa using hneg
            rw [if_neg hneg] at hval
            rw [if_neg hne']
            refine ⟨hval.2, ?_, ?_⟩ <;> norm_num <;> omega
      · rw [if_neg hc] at hne hall hval
        have hneg : ¬ c = '-' := fun h => hc (Or.inr h)
        rw [if_neg hneg] at hval
        refine ⟨[], c :: cs, hs, Or.inl rfl, hne, hall, ?_⟩
        rw [if_neg (by simp)]
        refine ⟨hval.2, ?_, ?_⟩ <;> norm_num <;> omega
  · rintro ⟨sign, ds, hs, hsign, hne, hall, hx, hlo, hhi⟩
    rcases hsign with rfl | rfl | ⟨_, rfl⟩
    · cases ds with
      | nil => exact absurd rfl hne
      | cons c cs =>
        have hc : isDecimalDigit c = true := hall c (List.mem_cons_self c cs)
        have hc1 : ¬ (c = '+' ∨ c = '-') := by
          rintro (rfl | rfl)
          · rw [hplus] at hc
            cases hc
          · rw [hminus] at hc
            cases hc
        have hneg : ¬ c = '-' := fun h => hc1 (Or.inr h)
        rw [if_neg (by simp)] at hx
        refine (ParseInt_ok_iff_core s c cs (c :: cs) x hs (by rw [if_neg hc1])).2
          ⟨hne, hall, ?_⟩
        rw [if_neg hneg]
        refine ⟨?_, hx⟩
        norm_num at hhi ⊢
        omega
    · rw [if_pos rfl] at hx
      refine (ParseInt_ok_iff_core s '-' ds ds x hs (by rw [if_pos (Or.inr rfl)])).2
        ⟨hne, hall, ?_⟩
      rw [if_pos rfl]
      refine ⟨?_, hx⟩
      norm_num at hlo ⊢
      omega
    · rw [if_neg (by decide)] at hx
      refine (ParseInt_ok_iff_core s '+' ds ds x hs (by rw [if_pos (Or.inl rfl)])).2
        ⟨hne, hall, ?_⟩
      rw [if_neg hpm]
      refine ⟨?_, hx⟩
      norm_num at hhi ⊢
      omega

theorem ParseInt_error_form (s : String) (err : Error) (h : ParseInt s = Except.error err) :
    ∃ cause, err = Error.numError "ParseInt" s cause := by
  unfold ParseInt at h
  split at h
  · exact ⟨NumErr.ErrSyntax, (Except.error.inj h).symm⟩
  · simp only at h
    split at h
    · exact ⟨NumErr.ErrSyntax, (Except.error.inj h).symm⟩
    · split at h
      · exact ⟨NumErr.ErrRange, (Except.error.inj h).symm⟩
      · split at h
        · exact ⟨NumErr.ErrRange, (Except.error.inj h).symm⟩
        · cases h

theorem not_signedDecimal_of_error (s : String) (err : Error)
    (h : ParseInt s = Except.error err) : ¬ ∃ x, IsSignedDecimal true s x := by
  rintro ⟨x, hx⟩
  rw [(ParseInt_ok_iff s x).2 hx] at h
  cases h

theorem ParseInt_error_of_not_signedDecimal (s : String)
    (h : ¬ ∃ x, IsSignedDecimal true s x) :
    ∃ cause, ParseInt s = Except.error (Error.numError "ParseInt" s cause) := by
  cases hp : ParseInt s with
  | ok x => exact absurd ⟨x, (ParseInt_ok_iff s x).1 hp⟩ h
  | error err =>
    obtain ⟨cause, hc⟩ := ParseInt_error_form s err hp
    exact ⟨cause, by rw [hc]⟩

/-! ## The value parse -/

/-- C4, as stated, fails: on the lines `BadKey` and `SctpInSCTPPacks abc` the
first line has one field, so whatever string is parsed the call ends with the
malformed-line error and not with a value-parse error, although `abc` is not
a numeral. -/
theorem parseSCTP_badValue_after_malformed :
    (∀ v, parseSCTP v ["BadKey", "SctpInSCTPPacks abc"] none = (none, some errFields)) ∧
      (¬ ∃ x, IsSignedDecimal true "abc" x) ∧
      ParseInt "abc" = Except.error (Error.numError "ParseInt" "abc" NumErr.ErrSyntax) := by
  have h : ParseInt "abc" = Except.error (Error.numError "ParseInt" "abc" NumErr.ErrSyntax) := by
    decide
  refine ⟨fun v => ?_, not_signedDecimal_of_error "abc" _ h, h⟩
  exact parseSCTP_of_loop_error v _ none errFields
    (scanLoop_cons_malformed v {} "BadKey" _ (by decide))

/-- C4, amended. If the string parsed at `sctp.go:97` is not a signed decimal
numeral of an `int64` (it is non-numeric or out of range), some line has
exactly two fields, and every line before it has exactly two fields and a
recognized name, then `parseSCTP` fails with the value-parse error, the
`NumError` of `ParseInt` for the string parsed, and returns no record,
whatever lines follow and whatever the scanner reports. -/
theorem parseSCTP_value_error (v : String) (pre post : List String) (line : String)
    (scanErr : Option Error)
    (hv : ¬ ∃ x, IsSignedDecimal true v x)
    (hpre : ∀ l ∈ pre, recognizedLine l)
    (hlen : (Fields line).length = 2) :
    ∃ cause, parseSCTP v (pre ++ line :: post) scanErr
      = (none, some (Error.numError "ParseInt" v cause)) := by
  obtain ⟨cause, hc⟩ := ParseInt_error_of_not_signedDecimal v hv
  refine ⟨cause, ?_⟩
  apply parseSCTP_of_loop_error
  cases pre with
  | nil => exact scanLoop_cons_badValue v {} line post _ hlen hc
  | cons l ls =>
    exact scanLoop_cons_badValue v {} l (ls ++ line :: post) _
      (hpre l (List.mem_cons_self l ls)).1 hc

/-- C4, witness of the amended statement: a non-numeric string on a first
line, and a value one above the largest `int64` on a second line. -/
theorem parseSCTP_value_error_witness :
    (∃ cause, parseSCTP "abc" ([] ++ "SctpInSCTPPacks abc" :: ["X"]) none
        = (none, some (Error.numError "ParseInt" "abc" cause))) ∧
      ∃ cause, parseSCTP "9223372036854775808"
          (["SctpInSCTPPacks 9223372036854775808"]
            ++ "SctpOutSCTPPacks 9223372036854775808" :: []) none
        = (none, some (Error.numError "ParseInt" "9223372036854775808" cause)) :=
  ⟨parseSCTP_value_error "abc" [] ["X"] "SctpInSCTPPacks abc" none
      (not_signedDecimal_of_error "abc" _
        (by decide : ParseInt "abc"
          = Except.error (Error.numError "ParseInt" "abc" NumErr.ErrSyntax)))
      (by decide) (by decide),
    parseSCTP_value_error "9223372036854775808" ["SctpInSCTPPacks 9223372036854775808"] []
      "SctpOutSCTPPacks 9223372036854775808" none
      (not_signedDecimal_of_error "9223372036854775808" _
        (by decide : ParseInt "9223372036854775808"
          = Except.error (Error.numError "ParseInt" "9223372036854775808" NumErr.ErrRange)))
      (by decide) (by decide)⟩

/-- C16 (the code departs from the claim). The value check of a line is made
on the string `v` of `sctp.go:97`, not on the line. For every `v`: when `v`
is a valid integer the line `BadKey abc` passes the value check and ends in
the unrecognized-key error, not in the value-parse error the claim gives as
its example; when `v` is not, the lines `SctpInSCTPPacks 1` and `X` end in
the value-parse error at the first line, whose own value is valid, and not in
the malformed-line error of the second, the first line the claim counts as
offending. -/
theorem parseSCTP_value_check_ignores_line (v : String) :
    (((∃ x, ParseInt v = Except.ok x) ∧
          parseSCTP v ["BadKey abc"] none = (none, some errMetric)) ∨
        (∃ cause, parseSCTP v ["SctpInSCTPPacks 1", "X"] none
            = (none, some (Error.numError "ParseInt" v cause)))) ∧
      parseSCTP "5" ["BadKey abc"] none = (none, some errMetric) := by
  refine ⟨?_, by decide⟩
  cases hv : ParseInt v with
  | ok x =>
    refine Or.inl ⟨⟨x, rfl⟩, ?_⟩
    exact parseSCTP_of_loop_error v _ none errMetric
      (scanLoop_cons_unknown v {} "BadKey abc" [] x (by decide) hv (by decide))
  | error err =>
    obtain ⟨cause, hc⟩ := ParseInt_error_form v err hv
    refine Or.inr ⟨cause, ?_⟩
    rw [← hc]
    exact parseSCTP_of_loop_error v _ none err
      (scanLoop_cons_badValue v {} "SctpInSCTPPacks 1" ["X"] err (by decide) hv)

/-! ## `Fields` on a name, a separator and a value -/

theorem fieldsAux_append_nonspace (cs rest cur : List Char)
    (h : ∀ c ∈ cs, IsSpace c = false) :
    fieldsAux (cs ++ rest) cur = fieldsAux rest (cs.reverse ++ cur) := by
  induction cs generalizing cur with
  | nil => rfl
  | cons c cs ih =>
    rw [List.cons_append, fieldsAux, h c (List.mem_cons_self c cs)]
    simp only [Bool.false_eq_true, if_false]
    rw [ih (c :: cur) (fun a ha => h a (List.mem_cons_of_mem c ha))]
    simp

theorem fieldsAux_spaces (ws rest : List Char) (h : ∀ c ∈ ws, IsSpace c = true) :
    fieldsAux (ws ++ rest) [] = fieldsAux rest [] := by
  induction ws with
  | nil => rfl
  | cons c cs ih =>
    rw [List.cons_append, fieldsAux, h c (List.mem_cons_self c cs)]
    simp only [if_true, List.isEmpty_nil]
    exact ih (fun a ha => h a (List.mem_cons_of_mem c ha))

theorem fieldsAux_spaces_after (ws rest cur : List Char) (hws : ws ≠ [])
    (h : ∀ c ∈ ws, IsSpace c = true) (hcur : cur ≠ []) :
    fieldsAux (ws ++ rest) cur = String.mk cur.reverse :: fieldsAux rest [] := by
  cases ws with
  | nil => exact absurd rfl hws
  | cons c cs =>
    have hc : cur.isEmpty = false := by
      cases cur with
      | nil => exact absurd rfl hcur
      | cons _ _ => rfl
    rw [List.cons_append, fieldsAux, h c (List.mem_cons_self c cs)]
    simp only [if_true, hc, Bool.false_eq_true, if_false]
    rw [fieldsAux_spaces cs rest (fun a ha => h a (List.mem_cons_of_mem c ha))]

theorem fieldsAux_end (ws cur : List Char) (h : ∀ c ∈ ws, IsSpace c = true) (hcur : cur ≠ []) :
    fieldsAux ws cur = [String.mk cur.reverse] := by
  have hc : cur.isEmpty = false := by
    cases cur with
    | nil => exact absurd rfl hcur
    | cons _ _ => rfl
  cases ws with
  | nil => simp [fieldsAux, hc]
  | cons c cs =>
    have h1 := fieldsAux_spaces_after (c :: cs) [] cur (List.cons_ne_nil c cs) h hcur
    rw [List.append_nil] at h1
    rw [h1]
    rfl

theorem fieldsAux_name_value (lead name sep value trail : List Char)
    (hlead : ∀ c ∈ lead, IsSpace c = true)
    (hname : name ≠ [] ∧ ∀ c ∈ name, IsSpace c = false)
    (hsep : sep ≠ [] ∧ ∀ c ∈ sep, IsSpace c = true)
    (hvalue : value ≠ [] ∧ ∀ c ∈ value, IsSpace c = false)
    (htrail : ∀ c ∈ trail, IsSpace c = true) :
    fieldsAux (lead ++ (name ++ (sep ++ (value ++ trail)))) []
      = [String.mk name, String.mk value] := by
  rw [fieldsAux_spaces lead _ hlead, fieldsAux_append_nonspace name _ [] hname.2,
    List.append_nil,
    fieldsAux_spaces_after sep _ name.reverse hsep.1 hsep.2 (by simpa using hname.1),
    fieldsAux_append_nonspace value _ [] hvalue.2, List.append_nil,
    fieldsAux_end trail value.reverse htrail (by simpa using hvalue.1)]
  simp

theorem Fields_padded (lead name sep value trail : String)
    (hlead : ∀ c ∈ lead.data, IsSpace c = true)
    (hname : name.data ≠ [] ∧ ∀ c ∈ name.data, IsSpace c = false)
    (hsep : sep.data ≠ [] ∧ ∀ c ∈ sep.data, IsSpace c = true)
    (hvalue : value.data ≠ [] ∧ ∀ c ∈ value.data, IsSpace c = false)
    (htrail : ∀ c ∈ trail.data, IsSpace c = true) :
    Fields (lead ++ name ++ sep ++ value ++ trail) = [name, value] := by
  unfold Fields
  simp only [String.data_append, List.append_assoc]
  exact fieldsAux_name_value _ _ _ _ _ hlead hname hsep hvalue htrail

theorem Fields_name_value (name value : String)
    (hname : name.data ≠ [] ∧ ∀ c ∈ name.data, IsSpace c = false)
    (hvalue : value.data ≠ [] ∧ ∀ c ∈ value.data, IsSpace c = false) :
    Fields (name ++ " " ++ value) = [name, value] := by
  have h := Fields_padded "" name " " value "" (by decide) hname (by decide) hvalue (by decide)
  unfold Fields at h ⊢
  simpa using h

theorem recognizedNames_nonspace :
    ∀ name ∈ recognizedNames, name.data ≠ [] ∧ ∀ c ∈ name.data, IsSpace c = false := by
  decide

theorem IsSpace_of_digit (c : Char) (h : isDecimalDigit c = true) : IsSpace c = false := by
  simp only [isDecimalDigit, decide_eq_true_eq] at h
  unfold IsSpace
  simp
  omega

theorem nonspace_of_ParseInt_ok (s : String) (x : Int) (h : ParseInt s = Except.ok x) :
    s.data ≠ [] ∧ ∀ c ∈ s.data, IsSpace c = false := by
  obtain ⟨sign, ds, hs, hsign, hne, hall, _⟩ := (ParseInt_ok_iff s x).1 h
  rw [hs]
  refine ⟨by simp [hne], ?_⟩
  intro c hc
  rcases List.mem_append.1 hc with h1 | h1
  · rcases hsign with rfl | rfl | ⟨_, rfl⟩
    · cases h1
    · rw [List.mem_singleton.1 h1]
      decide
    · rw [List.mem_singleton.1 h1]
      decide
  · exact IsSpace_of_digit c (hall c h1)

/-- C15. For every recognized name `name` and valid value `value`, a line
made of leading whitespace `lead` (possibly empty), `name`, a non-empty run
`sep` of spaces or tabs, `value` and trailing whitespace `trail` (possibly
empty) splits into the same two fields as the line `name value`, and
`parseSCTP` returns the same result on both, whatever string `p` it parses
and whatever the scanner reports. -/
theorem parseSCTP_padded_line (p lead name sep value trail : String) (x : Int)
    (scanErr : Option Error)
    (hname : name ∈ recognizedNames)
    (hvalue : ParseInt value = Except.ok x)
    (hlead : ∀ c ∈ lead.data, IsSpace c = true)
    (hsep : sep.data ≠ [] ∧ ∀ c ∈ sep.data, c = ' ' ∨ c = Char.ofNat 9)
    (htrail : ∀ c ∈ trail.data, IsSpace c = true) :
    Fields (lead ++ name ++ sep ++ value ++ trail) = [name, value] ∧
      Fields (name ++ " " ++ value) = [name, value] ∧
      parseSCTP p [lead ++ name ++ sep ++ value ++ trail] scanErr
        = parseSCTP p [name ++ " " ++ value] scanErr := by
  have hn := recognizedNames_nonspace name hname
  have hv := nonspace_of_ParseInt_ok value x hvalue
  have hsep' : sep.data ≠ [] ∧ ∀ c ∈ sep.data, IsSpace c = true := by
    refine ⟨hsep.1, fun c hc => ?_⟩
    rcases hsep.2 c hc with rfl | rfl <;> decide
  have h1 := Fields_padded lead name sep value trail hlead hn hsep' hv htrail
  have h2 := Fields_name_value name value hn hv
  refine ⟨h1, h2, ?_⟩
  unfold parseSCTP
  rw [scanLoop, scanLoop, h1, h2]

/-- C15, witness: a line with leading blanks, a tab and two spaces between the
fields, and a trailing space and tab. -/
theorem parseSCTP_padded_line_witness :
    Fields ("  " ++ "SctpInSCTPPacks" ++ "\t  " ++ "-42" ++ " \t")
        = ["SctpInSCTPPacks", "-42"] ∧
      Fields ("SctpInSCTPPacks" ++ " " ++ "-42") = ["SctpInSCTPPacks", "-42"] ∧
      parseSCTP "-42" ["  " ++ "SctpInSCTPPacks" ++ "\t  " ++ "-42" ++ " \t"] none
        = parseSCTP "-42" ["SctpInSCTPPacks" ++ " " ++ "-42"] none :=
  parseSCTP_padded_line "-42" "  " "SctpInSCTPPacks" "\t  " "-42" " \t" (-42) none
    (by decide) (by decide) (by decide) (by decide) (by decide)

theorem IsSignedDecimal_samples :
    IsSignedDecimal true "+5" 5 ∧ IsSignedDecimal false "-7" (-7) ∧
      (¬ ∃ x, IsSignedDecimal true "1_0" x) ∧ (¬ ∃ x, IsSignedDecimal true "0x1F" x) ∧
      (¬ ∃ x, IsSignedDecimal true "1.5" x) ∧ (¬ ∃ x, IsSignedDecimal false "+5" x) := by
  have h1 : ∀ s, (∀ x, ParseInt s ≠ Except.ok x) → ¬ ∃ x, IsSignedDecimal true s x :=
    fun s h ⟨x, hx⟩ => h x ((ParseInt_ok_iff s x).2 hx)
  refine ⟨⟨['+'], ['5'], rfl, by decide, by decide, by decide, by decide, by decide,
      by decide⟩,
    ⟨['-'], ['7'], rfl, by decide, by decide, by decide, by decide, by decide, by decide⟩,
    h1 _ ?_, h1 _ ?_, h1 _ ?_, ?_⟩
  · intro x h
    have : ParseInt "1_0" = Except.error (Error.numError "ParseInt" "1_0" NumErr.ErrSyntax) := by
      decide
    rw [this] at h
    cases h
  · intro x h
    have : ParseInt "0x1F" = Except.error (Error.numError "ParseInt" "0x1F" NumErr.ErrSyntax) := by
      decide
    rw [this] at h
    cases h
  · intro x h
    have : ParseInt "1.5" = Except.error (Error.numError "ParseInt" "1.5" NumErr.ErrSyntax) := by
      decide
    rw [this] at h
    cases h
  · rintro ⟨x, sign, ds, hs, hsign, hne, hall, _⟩
    rcases hsign with rfl | rfl | ⟨hf, _⟩
    · have hmem : '+' ∈ ds := by
        rw [List.nil_append] at hs
        rw [← hs]
        decide
      have := hall _ hmem
      revert this
      decide
    · have h0 : ("+5" : String).data = ['+', '5'] := rfl
      rw [h0] at hs
      cases hs
    · cases hf

/-- C14 (the code departs from the claim). Whether a line is accepted does
not depend on its value token: for every `v` the lines `SctpInSCTPPacks 5` and
`SctpInSCTPPacks 1.5` give the same result, and with `5` the string parsed
the token `1.5` is accepted. What decides is the string parsed at
`sctp.go:97`: a line with two fields and a recognized name is accepted
exactly when that string is an optional `+` or `-` followed by one or more
decimal digits denoting an `int64`. -/
theorem parseSCTP_syntax_ignores_token (v : String) :
    parseSCTP v ["SctpInSCTPPacks 5"] none = parseSCTP v ["SctpInSCTPPacks 1.5"] none ∧
      parseSCTP "5" ["SctpInSCTPPacks 1.5"] none = (some { InSCTPPacks := 5 }, none) ∧
      ∀ line : String, recognizedLine line →
        ((∃ r, parseSCTP v [line] none = (some r, none)) ↔ ∃ x, IsSignedDecimal true v x) := by
  refine ⟨?_, by decide, ?_⟩
  · unfold parseSCTP
    rw [scanLoop_cons_congr v {} "SctpInSCTPPacks 5" "SctpInSCTPPacks 1.5" []
      (by decide) (by decide)]
  · intro line hline
    constructor
    · rintro ⟨r, hr⟩
      by_contra hcon
      obtain ⟨cause, hc⟩ := ParseInt_error_of_not_signedDecimal v hcon
      rw [parseSCTP_of_loop_error v [line] none _
        (scanLoop_cons_badValue v {} line [] _ hline.1 hc)] at hr
      cases hr
    · rintro ⟨x, hx⟩
      have hv := (ParseInt_ok_iff v x).2 hx
      obtain ⟨r, hr⟩ := assign_isSome_of_mem {} ((Fields line).headD "") x hline.2
      refine ⟨r, parseSCTP_of_loop_ok v [line] none r ?_⟩
      rw [scanLoop_cons_assign v {} r line [] x hline.1 hv hr]
      rfl

/-! ## `ParseInt` on decimal renderings -/

theorem digitChar_toNat (d : Nat) (h : d < 10) : (digitChar d).toNat = 48 + d := by
  interval_cases d <;> rfl

theorem isDecimalDigit_digitChar (d : Nat) (h : d < 10) : isDecimalDigit (digitChar d) = true := by
  simp only [isDecimalDigit, digitChar_toNat d h, decide_eq_true_eq]
  omega

theorem decimalFrom_append_singleton (n : Nat) (xs : List Char) (c : Char) :
    decimalFrom n (xs ++ [c]) = decimalFrom n xs * 10 + (c.toNat - 48) := by
  simp [decimalFrom, List.foldl_append]

theorem decimalFrom_reverse_digits (L : List Nat) (h : ∀ d ∈ L, d < 10) :
    decimalFrom 0 (L.reverse.map digitChar) = Nat.ofDigits 10 L := by
  induction L with
  | nil => rfl
  | cons d L ih =>
    rw [List.reverse_cons, List.map_append, List.map_singleton, decimalFrom_append_singleton,
      ih (fun a ha => h a (List.mem_cons_of_mem d ha)),
      digitChar_toNat d (h d (List.mem_cons_self d L)), Nat.ofDigits_cons]
    omega

theorem formatNat_spec (n : Nat) :
    formatNat n ≠ [] ∧ (∀ c ∈ formatNat n, isDecimalDigit c = true) ∧
      decimalFrom 0 (formatNat n) = n := by
  unfold formatNat
  by_cases hn : n = 0
  · subst hn
    decide
  · rw [if_neg hn]
    have hlt : ∀ d ∈ Nat.digits 10 n, d < 10 := fun d hd => Nat.digits_lt_base (by norm_num) hd
    refine ⟨?_, ?_, ?_⟩
    · simpa using Nat.digits_ne_nil_iff_ne_zero.2 hn
    · intro c hc
      obtain ⟨d, hd, rfl⟩ := List.mem_map.1 hc
      exact isDecimalDigit_digitChar d (hlt d (List.mem_reverse.1 hd))
    · rw [decimalFrom_reverse_digits _ hlt, Nat.ofDigits_digits]

theorem ParseInt_error_range (s : String) (c : Char) (cs rest : List Char) (err : Error)
    (hs : s.data = c :: cs) (hrest : rest = if c = '+' ∨ c = '-' then cs else c :: cs)
    (hne : rest ≠ []) (hall : ∀ d ∈ rest, isDecimalDigit d = true)
    (h : ParseInt s = Except.error err) :
    err = Error.numError "ParseInt" s NumErr.ErrRange := by
  unfold ParseInt at h
  rw [hs] at h
  simp only [beq_iff_eq] at h
  rw [← hrest, ParseUint_of_ne_nil rest hne] at h
  rcases parseUintLoop_cases rest 0 (Nat.zero_le _) with ⟨h1, _, _⟩ | ⟨_, h2⟩ | ⟨h3, _⟩
  · rw [h1] at h
    simp only at h
    split_ifs at h <;> exact (Except.error.inj h).symm
  · exact absurd hall h2
  · rw [h3] at h
    simp only at h
    split_ifs at h <;> exact (Except.error.inj h).symm

theorem ParseInt_FormatInt (n x : Int) :
    ParseInt (FormatInt n) = Except.ok x ↔ x = n ∧ -(2 : Int) ^ 63 ≤ n ∧ n ≤ 2 ^ 63 - 1 := by
  have hminus : isDecimalDigit '-' = false := by decide
  have hplus : isDecimalDigit '+' = false := by decide
  by_cases hn : n < 0
  · obtain ⟨hne, hall, hval⟩ := formatNat_spec n.natAbs
    have hs : (FormatInt n).data = '-' :: formatNat n.natAbs := by
      unfold FormatInt
      rw [if_pos hn]
    rw [ParseInt_ok_iff_core (FormatInt n) '-' _ (formatNat n.natAbs) x hs
      (by rw [if_pos (Or.inr rfl)])]
    rw [if_pos rfl, hval]
    simp only [hne, ne_eq, not_false_eq_true, hall, implies_true, true_and]
    have e1 : (2 : Nat) ^ 63 = 9223372036854775808 := by norm_num
    have e2 : (2 : Int) ^ 63 = 9223372036854775808 := by norm_num
    rw [e1, e2]
    constructor
    · rintro ⟨_, h1, h2⟩
      omega
    · intro h1
      exact ⟨hall, by omega, by omega⟩
  · obtain ⟨hne, hall, hval⟩ := formatNat_spec n.toNat
    obtain ⟨c, cs, hcs⟩ := List.exists_cons_of_ne_nil hne
    have hs : (FormatInt n).data = c :: cs := by
      unfold FormatInt
      rw [if_neg hn, hcs]
    have hc : isDecimalDigit c = true := hall c (by rw [hcs]; exact List.mem_cons_self c cs)
    have hc1 : ¬ (c = '+' ∨ c = '-') := by
      rintro (rfl | rfl)
      · rw [hplus] at hc
        cases hc
      · rw [hminus] at hc
        cases hc
    rw [ParseInt_ok_iff_core (FormatInt n) c cs (formatNat n.toNat) x hs
      (by rw [if_neg hc1, hcs])]
    rw [if_neg (fun h => hc1 (Or.inr h)), hval]
    simp only [hne, ne_eq, not_false_eq_true, hall, implies_true, true_and]
    have e1 : (2 : Nat) ^ 63 = 9223372036854775808 := by norm_num
    have e2 : (2 : Int) ^ 63 = 9223372036854775808 := by norm_num
    rw [e1, e2]
    constructor
    · rintro ⟨_, h1, h2⟩
      omega
    · intro h1
      exact ⟨hall, by omega, by omega⟩

theorem ParseInt_FormatInt_out_of_range (n : Int)
    (h : ¬ (-(2 : Int) ^ 63 ≤ n ∧ n ≤ 2 ^ 63 - 1)) :
    ParseInt (FormatInt n)
      = Except.error (Error.numError "ParseInt" (FormatInt n) NumErr.ErrRange) := by
  cases hp : ParseInt (FormatInt n) with
  | ok x => exact absurd ((ParseInt_FormatInt n x).1 hp).2 h
  | error err =>
    have hminus : isDecimalDigit '-' = false := by decide
    have hplus : isDecimalDigit '+' = false := by decide
    by_cases hn : n < 0
    · obtain ⟨hne, hall, _⟩ := formatNat_spec n.natAbs
      have hs : (FormatInt n).data = '-' :: formatNat n.natAbs := by
        unfold FormatInt
        rw [if_pos hn]
      rw [ParseInt_error_range (FormatInt n) '-' _ (formatNat n.natAbs) err hs
        (by rw [if_pos (Or.inr rfl)]) hne hall hp]
    · obtain ⟨hne, hall, _⟩ := formatNat_spec n.toNat
      obtain ⟨c, cs, hcs⟩ := List.exists_cons_of_ne_nil hne
      have hs : (FormatInt n).data = c :: cs := by
        unfold FormatInt
        rw [if_neg hn, hcs]
      have hc : isDecimalDigit c = true := hall c (by rw [hcs]; exact List.mem_cons_self c cs)
      have hc1 : ¬ (c = '+' ∨ c = '-') := by
        rintro (rfl | rfl)
        · rw [hplus] at hc
          cases hc
        · rw [hminus] at hc
          cases hc
      rw [ParseInt_error_range (FormatInt n) c cs (formatNat n.toNat) err hs
        (by rw [if_neg hc1, hcs]) hne hall hp]

theorem formatNat_samples :
    formatNat 0 = ['0'] ∧ formatNat 42 = ['4', '2'] ∧
      formatNat 9223372036854775807 = "9223372036854775807".data ∧
      formatNat 9223372036854775808 = "9223372036854775808".data ∧
      formatNat 9223372036854775809 = "9223372036854775809".data := by
  refine ⟨?_, ?_, ?_, ?_, ?_⟩ <;> (unfold formatNat; norm_num [digitChar])

theorem FormatInt_samples :
    FormatInt 0 = "0" ∧ FormatInt 42 = "42" ∧
      FormatInt 9223372036854775807 = "9223372036854775807" ∧
      FormatInt (-9223372036854775808) = "-9223372036854775808" ∧
      FormatInt 9223372036854775808 = "9223372036854775808" ∧
      FormatInt (-9223372036854775809) = "-9223372036854775809" := by
  obtain ⟨h0, h1, h2, h3, h4⟩ := formatNat_samples
  have t1 : Int.toNat 0 = 0 := rfl
  have t2 : Int.toNat 42 = 42 := rfl
  have t3 : Int.toNat 9223372036854775807 = 9223372036854775807 := rfl
  have t4 : Int.natAbs (-9223372036854775808) = 9223372036854775808 := rfl
  have t5 : Int.toNat 9223372036854775808 = 9223372036854775808 := rfl
  have t6 : Int.natAbs (-9223372036854775809) = 9223372036854775809 := rfl
  refine ⟨?_, ?_, ?_, ?_, ?_, ?_⟩
  · unfold FormatInt
    rw [if_neg (by decide), t1, h0]
  · unfold FormatInt
    rw [if_neg (by decide), t2, h1]
  · unfold FormatInt
    rw [if_neg (by decide), t3, h2]
  · unfold FormatInt
    rw [if_pos (by decide), t4, h3]
  · unfold FormatInt
    rw [if_neg (by decide), t5, h3]
  · unfold FormatInt
    rw [if_pos (by decide), t6, h4]

/-- C13 (the code departs from the claim). Whether a line is accepted does
not depend on the number it carries: for every `v` the lines with the values
9223372036854775807 and 9223372036854775808 give the same result; with `5`
the string parsed the value 9223372036854775808 is accepted (the field set
to 5), and with `9223372036854775808` the string parsed the value 42 is
rejected. The range check itself is that of the claim: `ParseInt` accepts the
decimal rendering of `n`, with the value `n`, exactly when
`-2 ^ 63 ≤ n ≤ 2 ^ 63 - 1`, and gives the range error otherwise. -/
theorem parseSCTP_range_ignores_token (v : String) :
    parseSCTP v ["SctpInSCTPPacks 9223372036854775807"] none
        = parseSCTP v ["SctpInSCTPPacks 9223372036854775808"] none ∧
      parseSCTP "5" ["SctpInSCTPPacks 9223372036854775808"] none
        = (some { InSCTPPacks := 5 }, none) ∧
      parseSCTP "9223372036854775808" ["SctpInSCTPPacks 42"] none
        = (none, some (Error.numError "ParseInt" "9223372036854775808" NumErr.ErrRange)) ∧
      (∀ n x : Int, ParseInt (FormatInt n) = Except.ok x ↔
        x = n ∧ -(2 : Int) ^ 63 ≤ n ∧ n ≤ 2 ^ 63 - 1) ∧
      ∀ n : Int, ¬ (-(2 : Int) ^ 63 ≤ n ∧ n ≤ 2 ^ 63 - 1) →
        ParseInt (FormatInt n)
          = Except.error (Error.numError "ParseInt" (FormatInt n) NumErr.ErrRange) := by
  refine ⟨?_, by decide, by decide, ParseInt_FormatInt, ParseInt_FormatInt_out_of_range⟩
  unfold parseSCTP
  rw [scanLoop_cons_congr v {} "SctpInSCTPPacks 9223372036854775807"
    "SctpInSCTPPacks 9223372036854775808" [] (by decide) (by decide)]

end Procfs
